import Mathlib

/-!
Teleport chain-event synchronizer: a shallow embedding.

This file embeds the chain-event synchronizer of the Teleport repository
(crates `eth` and `storage`) into Lean and proves properties of it.

Conventions of the embedding:

* Machine integers are `Nat` (unsigned) or `Int` (signed), with the
  overflow/panic behaviour of the Rust casts (`U256::as_u32`, `as_u64`,
  `u64 as i64`, …) made explicit.
* Byte strings (`Vec<u8>`, `Bytes`, `H256`, `Address`) are `List Nat`
  (one `Nat` per byte); 32-byte topic words are a single `Nat` (their
  big-endian value), converted to bytes where the source converts.
* A fallible Rust computation is `Except Failure α`: `Failure.error`
  models an `Err` value propagated with `?`, `Failure.panic` models a
  Rust panic (failed `unwrap`, out-of-bounds index/slice, `assert!`,
  arithmetic cast overflow).  `.unwrap()` on an `Err` turns an `error`
  into a `panic`.
* `Uuid::new_v4()` generates a fresh row id; the embedding threads an
  explicit counter `uid` and hands out successive ids (claims never
  depend on the ids being random, only on their role as references).
* Protobuf bodies are kept structured instead of serialized
  (`encode_to_vec` is injective, and no property here inspects the
  wire bytes).  Protobuf enum values are taken from the Farcaster
  schema the generated `teleport_protobuf` code is built from; the
  repository's own test (`id_registry.rs`, `test_get_register_logs`)
  pins `EVENT_TYPE_ID_REGISTER = 3`.
-/

namespace Teleport

/-- A byte string: one `Nat` (0..255) per byte. -/
abbrev Bytes := List Nat

/-- Failure of a Rust computation: a propagated `Err` (with its message)
or a panic (failed `unwrap`, index/slice out of bounds, assertion,
overflowing cast).  Panics carry no payload: no claim distinguishes
panic messages. -/
inductive Failure where
  | error (msg : String)
  | panic
deriving DecidableEq, Repr

/-- Result of a fallible Rust computation. -/
abbrev EResult (α : Type) := Except Failure α

instance {ε α : Type} [DecidableEq ε] [DecidableEq α] : DecidableEq (Except ε α) := fun x y =>
  match x, y with
  | .ok a, .ok b =>
    if h : a = b then .isTrue (by rw [h]) else .isFalse (fun c => h (Except.ok.inj c))
  | .error a, .error b =>
    if h : a = b then .isTrue (by rw [h]) else .isFalse (fun c => h (Except.error.inj c))
  | .ok _, .error _ => .isFalse (fun c => Except.noConfusion c)
  | .error _, .ok _ => .isFalse (fun c => Except.noConfusion c)

/-- The `.unwrap()` applied to a `Result`: an `Err` becomes a panic. -/
def unwrapResult {α : Type} : EResult α → EResult α
  | .ok a => .ok a
  | .error _ => .error .panic

/-- Big-endian byte-string value. -/
def bytesToNat (b : Bytes) : Nat := b.foldl (fun acc x => acc * 256 + x) 0

/-- Big-endian encoding of `n` into exactly `len` bytes (the low
`len` bytes of `n`), as `to_fixed_bytes`/`as_bytes` produce. -/
def natToBytes : Nat → Nat → Bytes
  | 0, _ => []
  | len + 1, n => natToBytes len (n / 256) ++ [n % 256]

/-- The 20 bytes of an address word. -/
def addressBytes (a : Nat) : Bytes := natToBytes 20 a

/-- The 32 bytes of a 256-bit word (`H256::to_fixed_bytes`). -/
def wordBytes (w : Nat) : Bytes := natToBytes 32 w

/-- An Ethereum log as delivered by the provider (`ethers::types::Log`),
restricted to the fields the synchronizer reads.  Topics are 32-byte
words kept as their `Nat` value. -/
structure Log where
  topics : List Nat
  data : Bytes
  block_hash : Option Nat
  block_number : Option Nat
  transaction_hash : Option Nat
  transaction_index : Option Nat
  log_index : Option Nat
  removed : Option Bool
deriving DecidableEq, Repr

/-! ## Protobuf enum values (Farcaster schema) -/

def EVENT_TYPE_SIGNER : Nat := 1
def EVENT_TYPE_SIGNER_MIGRATED : Nat := 2
def EVENT_TYPE_ID_REGISTER : Nat := 3
def EVENT_TYPE_STORAGE_RENT : Nat := 4
def ID_REGISTER_EVENT_TYPE_REGISTER : Nat := 1
def ID_REGISTER_EVENT_TYPE_TRANSFER : Nat := 2
def SIGNER_EVENT_TYPE_ADD : Nat := 1
def SIGNER_EVENT_TYPE_REMOVE : Nat := 2
def SIGNER_EVENT_TYPE_ADMIN_RESET : Nat := 3

/-! ## Protobuf event bodies -/

/-- The decoded signer-request metadata (`SignerRequestMetadata` in
`key_registry.rs`); stored JSON-serialized by the source, kept
structured here. -/
structure SignerRequestMetadata where
  request_fid : Nat
  request_signer : Bytes
  signature : Bytes
  deadline : Nat
deriving DecidableEq, Repr

structure IdRegisterEventBody where
  /-- the `to` field of the protobuf body (`to` is a reserved token in Lean) -/
  to_addr : Bytes
  event_type : Nat
  /-- the `from` field of the protobuf body (`from` is a Lean keyword) -/
  from_addr : Bytes
  recovery_address : Bytes
deriving DecidableEq, Repr

structure SignerEventBody where
  key : Bytes
  key_type : Nat
  event_type : Nat
  metadata : SignerRequestMetadata
  metadata_type : Nat
deriving DecidableEq, Repr

structure SignerMigratedEventBody where
  migrated_at : Nat
deriving DecidableEq, Repr

structure StorageRentEventBody where
  payer : Bytes
  units : Nat
  expiry : Nat
deriving DecidableEq, Repr

/-- The `on_chain_event::Body`. -/
inductive Body where
  | IdRegisterEventBody (b : IdRegisterEventBody)
  | SignerEventBody (b : SignerEventBody)
  | SignerMigratedEventBody (b : SignerMigratedEventBody)
  | StorageRentEventBody (b : StorageRentEventBody)
deriving DecidableEq, Repr

/-- The `OnChainEvent`, the canonical envelope. -/
structure OnChainEvent where
  type : Nat
  chain_id : Nat
  block_number : Nat
  block_hash : Bytes
  block_timestamp : Nat
  transaction_hash : Bytes
  log_index : Nat
  fid : Nat
  body : Option Body
  tx_index : Nat
  version : Nat
deriving DecidableEq, Repr

/-! ## Database rows (`teleport_storage::db`) -/

structure ChainEventRow where
  id : Nat
  block_timestamp : Nat
  fid : Nat
  chain_id : Nat
  block_number : Nat
  transaction_index : Nat
  log_index : Nat
  type : Nat
  block_hash : Bytes
  transaction_hash : Bytes
  body : Option Body
  raw : Bytes
deriving DecidableEq, Repr

/-- The `ChainEventRow::new`: copies the envelope into a row under a fresh
id (`uid` stands for the generated UUID). -/
def ChainEventRow.new (uid : Nat) (onchain_event : OnChainEvent) (raw_event : Bytes) :
    ChainEventRow :=
  { id := uid
    block_timestamp := onchain_event.block_timestamp
    fid := onchain_event.fid
    chain_id := onchain_event.chain_id
    block_number := onchain_event.block_number
    transaction_index := onchain_event.tx_index
    log_index := onchain_event.log_index
    type := onchain_event.type
    block_hash := onchain_event.block_hash
    transaction_hash := onchain_event.transaction_hash
    body := onchain_event.body
    raw := raw_event }

structure FidRow where
  fid : Int
  registered_at : Nat
  chain_event_id : Nat
  custody_address : Bytes
  recovery_address : Bytes
deriving DecidableEq, Repr

structure FidTransfer where
  fid : Nat
  custody_address : Bytes
deriving DecidableEq, Repr

structure FidRecoveryUpdate where
  fid : Nat
  recovery_address : Bytes
deriving DecidableEq, Repr

structure SignerRow where
  id : Nat
  added_at : String
  removed_at : Option String
  fid : Nat
  requester_fid : Nat
  add_chain_event_id : Nat
  remove_chain_event_id : Option Nat
  key_type : Int
  metadata_type : Int
  key : Bytes
  metadata : SignerRequestMetadata
deriving DecidableEq, Repr

/-- The `SignerRow::new` (`added_at = "0"`, `removed_at = None`, fresh id). -/
def SignerRow.new (uid : Nat) (fid requester_fid : Nat) (add_chain_event_id : Nat)
    (remove_chain_event_id : Option Nat) (key_type metadata_type : Int) (key : Bytes)
    (metadata : SignerRequestMetadata) : SignerRow :=
  { id := uid, added_at := "0", removed_at := none, fid, requester_fid,
    add_chain_event_id, remove_chain_event_id, key_type, metadata_type, key, metadata }

structure StorageAllocationRow where
  id : Nat
  rented_at : Int
  expires_at : Nat
  chain_event_id : Nat
  fid : Nat
  units : Nat
  payer : Bytes
deriving DecidableEq, Repr

/-- The `StorageAllocationRow::new` (fresh id). -/
def StorageAllocationRow.new (uid : Nat) (rented_at : Int) (expires_at : Nat)
    (chain_event_id : Nat) (fid units : Nat) (payer : Bytes) : StorageAllocationRow :=
  { id := uid, rented_at, expires_at, chain_event_id, fid, units, payer }

/-- The relational store: the four tables the synchronizer writes. -/
structure Store where
  chain_events : List ChainEventRow
  fids : List FidRow
  signers : List SignerRow
  storage_allocations : List StorageAllocationRow
deriving DecidableEq, Repr

def emptyStore : Store := ⟨[], [], [], []⟩

/-! ## Rust integer casts

`U256::as_u64` / `U256::as_u32` / `U64::as_u32` panic when the value
does not fit; `u64 as i64` reinterprets the bit pattern. -/

/-- The `u64 as i64`. -/
def toI64 (n : Nat) : Int := if n < 2 ^ 63 then (n : Int) else (n : Int) - 2 ^ 64

/-! ## Event decoding (`ethers::contract::parse_log`)

`parse_log` checks that the log's shape (signature topic, number of
topics, ABI length of the data) matches the event and returns `Err`
otherwise.  The signature-topic equality itself is modelled by the
`EventKind` tag a log carries in the chain model below: the only call
sites hand each `process_*` function logs fetched through a
single-topic filter for exactly that event. -/

/-- The `Register { to: Address (indexed), id: U256 (indexed), recovery: Address }`. -/
structure Register where
  to_addr : Nat
  id : Nat
  recovery : Nat
deriving DecidableEq, Repr

/-- The `Transfer`/`Recover` `{ from, to: Address (indexed), id: U256 (indexed) }`. -/
structure Transfer where
  from_addr : Nat
  to_addr : Nat
  id : Nat
deriving DecidableEq, Repr

/-- The `ChangeRecoveryAddress { id: U256 (indexed), recovery: Address (indexed) }`. -/
structure ChangeRecoveryAddress where
  id : Nat
  recovery : Nat
deriving DecidableEq, Repr

/-- The `Migrated { keysMigratedAt: U256 (indexed) }`. -/
structure Migrated where
  keysMigratedAt : Nat
deriving DecidableEq, Repr

/-- The `Rent { payer: Address (indexed), fid: U256 (indexed), units: U256 }`. -/
structure Rent where
  payer : Nat
  fid : Nat
  units : Nat
deriving DecidableEq, Repr

/-- The `SetMaxUnits { oldMax: U256, newMax: U256 }` (both non-indexed). -/
structure SetMaxUnits where
  oldMax : Nat
  newMax : Nat
deriving DecidableEq, Repr

/-- Two indexed topics plus one 32-byte data word (the non-indexed
`recovery` address). -/
def parse_log_register (log : Log) : EResult Register :=
  match log.topics with
  | [_t0, t1, t2] =>
    if log.data.length = 32 then
      .ok { to_addr := t1 % 2 ^ 160, id := t2, recovery := bytesToNat log.data % 2 ^ 160 }
    else .error (.error "failed to parse Register log")
  | _ => .error (.error "failed to parse Register log")

/-- Three indexed topics, no non-indexed parameters (the ABI decoder
accepts the data unchecked when the non-indexed tuple is empty). -/
def parse_log_transfer (log : Log) : EResult Transfer :=
  match log.topics with
  | [_t0, t1, t2, t3] =>
    .ok { from_addr := t1 % 2 ^ 160, to_addr := t2 % 2 ^ 160, id := t3 }
  | _ => .error (.error "failed to parse Transfer log")

/-- The `Recover` has the same shape as `Transfer`. -/
def parse_log_recover (log : Log) : EResult Transfer :=
  match log.topics with
  | [_t0, t1, t2, t3] =>
    .ok { from_addr := t1 % 2 ^ 160, to_addr := t2 % 2 ^ 160, id := t3 }
  | _ => .error (.error "failed to parse Recover log")

/-- Two indexed topics, no non-indexed parameters. -/
def parse_log_change_recovery_address (log : Log) : EResult ChangeRecoveryAddress :=
  match log.topics with
  | [_t0, t1, t2] =>
    .ok { id := t1, recovery := t2 % 2 ^ 160 }
  | _ => .error (.error "failed to parse ChangeRecoveryAddress log")

/-- One indexed topic, no non-indexed parameters. -/
def parse_log_migrated (log : Log) : EResult Migrated :=
  match log.topics with
  | [_t0, t1] => .ok { keysMigratedAt := t1 }
  | _ => .error (.error "failed to parse Migrated log")

/-- Two indexed topics plus one 32-byte data word (`units`). -/
def parse_log_rent (log : Log) : EResult Rent :=
  match log.topics with
  | [_t0, t1, t2] =>
    if log.data.length = 32 then
      .ok { payer := t1 % 2 ^ 160, fid := t2, units := bytesToNat log.data }
    else .error (.error "failed to parse Rent log")
  | _ => .error (.error "failed to parse Rent log")

/-- No indexed topics; the data is two 32-byte words. -/
def parse_log_set_max_units (log : Log) : EResult SetMaxUnits :=
  match log.topics with
  | [_t0] =>
    if log.data.length = 64 then
      .ok { oldMax := bytesToNat (log.data.take 32), newMax := bytesToNat (log.data.drop 32) }
    else .error (.error "failed to parse SetMaxUnits log")
  | _ => .error (.error "failed to parse SetMaxUnits log")

/-- Same shape as `SetMaxUnits`. -/
def parse_log_set_deprecation_timestamp (log : Log) : EResult SetMaxUnits :=
  match log.topics with
  | [_t0] =>
    if log.data.length = 64 then
      .ok { oldMax := bytesToNat (log.data.take 32), newMax := bytesToNat (log.data.drop 32) }
    else .error (.error "failed to parse SetDeprecationTimestamp log")
  | _ => .error (.error "failed to parse SetDeprecationTimestamp log")

/-! ## Id-registry event processing (`id_registry.rs`) -/

/-- The `Contract::process_register_log`: decode a `Register` log into the
derived `FidRow` and the canonical `ChainEventRow`.  A parse failure
is an `Err` propagated with `?`; a missing block-metadata field or an
overflowing `as_u32`/`as_u64` cast is a panic. -/
def process_register_log (log : Log) (chain_id timestamp uid : Nat) :
    EResult ((FidRow × ChainEventRow) × Nat) :=
  match parse_log_register log with
  | .error f => .error f
  | .ok parsed =>
    match log.block_number, log.block_hash, log.transaction_hash,
        log.log_index, log.transaction_index with
    | some bn, some bh, some th, some li, some ti =>
      if bn < 2 ^ 32 ∧ li < 2 ^ 32 ∧ ti < 2 ^ 32 ∧ parsed.id < 2 ^ 64 then
        let body : IdRegisterEventBody :=
          { to_addr := addressBytes parsed.to_addr
            event_type := ID_REGISTER_EVENT_TYPE_REGISTER
            from_addr := []
            recovery_address := addressBytes parsed.recovery }
        let onchain_event : OnChainEvent :=
          { type := EVENT_TYPE_ID_REGISTER, chain_id, block_number := bn
            block_hash := wordBytes bh, block_timestamp := timestamp
            transaction_hash := wordBytes th, log_index := li, fid := parsed.id
            body := some (.IdRegisterEventBody body), tx_index := ti, version := 2 }
        let event_row := ChainEventRow.new uid onchain_event log.data
        let fid_row : FidRow :=
          { fid := toI64 parsed.id, registered_at := timestamp, chain_event_id := uid
            custody_address := addressBytes parsed.to_addr
            recovery_address := addressBytes parsed.recovery }
        .ok ((fid_row, event_row), uid + 1)
      else .error .panic
    | _, _, _, _, _ => .error .panic

/-- The `Contract::process_transfer_log`.  The derived value is a
`FidTransfer` custody update; `parsed.id.as_u32()` additionally
requires the fid to fit in 32 bits. -/
def process_transfer_log (log : Log) (chain_id timestamp uid : Nat) :
    EResult ((FidTransfer × ChainEventRow) × Nat) :=
  match parse_log_transfer log with
  | .error f => .error f
  | .ok parsed =>
    match log.block_number, log.block_hash, log.transaction_hash,
        log.log_index, log.transaction_index with
    | some bn, some bh, some th, some li, some ti =>
      if bn < 2 ^ 32 ∧ li < 2 ^ 32 ∧ ti < 2 ^ 32 ∧ parsed.id < 2 ^ 64 ∧ parsed.id < 2 ^ 32 then
        let body : IdRegisterEventBody :=
          { to_addr := addressBytes parsed.to_addr
            event_type := ID_REGISTER_EVENT_TYPE_TRANSFER
            from_addr := addressBytes parsed.from_addr
            recovery_address := [] }
        let onchain_event : OnChainEvent :=
          { type := EVENT_TYPE_ID_REGISTER, chain_id, block_number := bn
            block_hash := wordBytes bh, block_timestamp := timestamp
            transaction_hash := wordBytes th, log_index := li, fid := parsed.id
            body := some (.IdRegisterEventBody body), tx_index := ti, version := 2 }
        let event_row := ChainEventRow.new uid onchain_event log.data
        let fid_transfer : FidTransfer :=
          { fid := parsed.id, custody_address := addressBytes parsed.to_addr }
        .ok ((fid_transfer, event_row), uid + 1)
      else .error .panic
    | _, _, _, _, _ => .error .panic

/-- The `Contract::process_recovery_log`: a recovery's delta is identical
to a transfer (the body's `event_type` is `Transfer` in the source). -/
def process_recovery_log (log : Log) (chain_id timestamp uid : Nat) :
    EResult ((FidTransfer × ChainEventRow) × Nat) :=
  match parse_log_recover log with
  | .error f => .error f
  | .ok parsed =>
    match log.block_number, log.block_hash, log.transaction_hash,
        log.log_index, log.transaction_index with
    | some bn, some bh, some th, some li, some ti =>
      if bn < 2 ^ 32 ∧ li < 2 ^ 32 ∧ ti < 2 ^ 32 ∧ parsed.id < 2 ^ 64 ∧ parsed.id < 2 ^ 32 then
        let body : IdRegisterEventBody :=
          { to_addr := addressBytes parsed.to_addr
            event_type := ID_REGISTER_EVENT_TYPE_TRANSFER
            from_addr := addressBytes parsed.from_addr
            recovery_address := [] }
        let onchain_event : OnChainEvent :=
          { type := EVENT_TYPE_ID_REGISTER, chain_id, block_number := bn
            block_hash := wordBytes bh, block_timestamp := timestamp
            transaction_hash := wordBytes th, log_index := li, fid := parsed.id
            body := some (.IdRegisterEventBody body), tx_index := ti, version := 2 }
        let event_row := ChainEventRow.new uid onchain_event log.data
        let fid_transfer : FidTransfer :=
          { fid := parsed.id, custody_address := addressBytes parsed.to_addr }
        .ok ((fid_transfer, event_row), uid + 1)
      else .error .panic
    | _, _, _, _, _ => .error .panic

/-- The `Contract::process_change_recovery_address_log` (the body's
`event_type` is `Transfer` in the source). -/
def process_change_recovery_address_log (log : Log) (chain_id timestamp uid : Nat) :
    EResult ((FidRecoveryUpdate × ChainEventRow) × Nat) :=
  match parse_log_change_recovery_address log with
  | .error f => .error f
  | .ok parsed =>
    match log.block_number, log.block_hash, log.transaction_hash,
        log.log_index, log.transaction_index with
    | some bn, some bh, some th, some li, some ti =>
      if bn < 2 ^ 32 ∧ li < 2 ^ 32 ∧ ti < 2 ^ 32 ∧ parsed.id < 2 ^ 64 ∧ parsed.id < 2 ^ 32 then
        let body : IdRegisterEventBody :=
          { to_addr := []
            event_type := ID_REGISTER_EVENT_TYPE_TRANSFER
            from_addr := []
            recovery_address := addressBytes parsed.recovery }
        let onchain_event : OnChainEvent :=
          { type := EVENT_TYPE_ID_REGISTER, chain_id, block_number := bn
            block_hash := wordBytes bh, block_timestamp := timestamp
            transaction_hash := wordBytes th, log_index := li, fid := parsed.id
            body := some (.IdRegisterEventBody body), tx_index := ti, version := 2 }
        let event_row := ChainEventRow.new uid onchain_event log.data
        let fid_recovery_update : FidRecoveryUpdate :=
          { fid := parsed.id, recovery_address := addressBytes parsed.recovery }
        .ok ((fid_recovery_update, event_row), uid + 1)
      else .error .panic
    | _, _, _, _, _ => .error .panic

/-! ## Key-registry event processing (`key_registry.rs`) -/

/-- The `Contract::decode_metadata`: ABI-decode
`(uint256 requestFid, address requestSigner, bytes signature, uint256 deadline)`
from `log.data[192..]`.  Slicing panics when the data is shorter than
192 bytes; every decode failure is `.unwrap()`-ed into a panic, and so
are the `parse::<u64>().unwrap()` overflow checks on the two uints. -/
def decode_metadata (data : Bytes) : EResult SignerRequestMetadata :=
  if data.length < 192 then .error .panic
  else
    let tail := data.drop 192
    if tail.length < 128 then .error .panic
    else
      let w0 := bytesToNat (tail.take 32)
      let w1 := bytesToNat ((tail.drop 32).take 32)
      let off := bytesToNat ((tail.drop 64).take 32)
      let w3 := bytesToNat ((tail.drop 96).take 32)
      if off + 32 ≤ tail.length then
        let blen := bytesToNat ((tail.drop off).take 32)
        if off + 32 + blen ≤ tail.length then
          if w0 < 2 ^ 64 ∧ w3 < 2 ^ 64 then
            .ok { request_fid := w0, request_signer := addressBytes (w1 % 2 ^ 160)
                  signature := ((tail.drop (off + 32)).take blen), deadline := w3 }
          else .error .panic
        else .error .panic
      else .error .panic

/-- The `Contract::process_add_log`.  The source does not use `parse_log`
here: it indexes `topics[1]`/`topics[2]` and slices
`data[128..160]`/`data[190]` directly, so every malformed input is a
panic (index/slice out of bounds, `assert_eq!`, `unwrap`), never an
`Err`.  The 32-byte `key` is `data[128..160]`, so the
`assert_eq!(key_bytes.len(), 32)` can only succeed. -/
def process_add_log (log : Log) (chain_id timestamp uid : Nat) :
    EResult ((SignerRow × ChainEventRow) × Nat) :=
  match log.topics with
  | _t0 :: t1 :: t2 :: _ =>
    if t1 < 2 ^ 64 ∧ t2 < 2 ^ 32 then
      if log.data.length < 160 then .error .panic
      else
        let key_bytes := (log.data.drop 128).take 32
        if log.data.length ≤ 190 then .error .panic
        else
          let metadata_type := log.data.getD 190 0
          match decode_metadata log.data with
          | .error f => .error f
          | .ok signer_request =>
            let body : SignerEventBody :=
              { key := key_bytes, key_type := t2, event_type := SIGNER_EVENT_TYPE_ADD
                metadata := signer_request, metadata_type := metadata_type }
            match log.block_number, log.block_hash, log.transaction_hash,
                log.log_index, log.transaction_index with
            | some bn, some bh, some th, some li, some ti =>
              if bn < 2 ^ 32 ∧ li < 2 ^ 32 ∧ ti < 2 ^ 32 then
                let onchain_event : OnChainEvent :=
                  { type := EVENT_TYPE_SIGNER, chain_id, block_number := bn
                    block_hash := wordBytes bh, block_timestamp := timestamp
                    transaction_hash := wordBytes th, log_index := li, fid := t1
                    body := some (.SignerEventBody body), tx_index := ti, version := 2 }
                let event_row := ChainEventRow.new uid onchain_event log.data
                let signer := SignerRow.new (uid + 1) t1 signer_request.request_fid uid none
                  (t2 : Int) (metadata_type : Int) key_bytes signer_request
                .ok ((signer, event_row), uid + 2)
              else .error .panic
            | _, _, _, _, _ => .error .panic
    else .error .panic
  | _ => .error .panic

/-- The `data.chunks(32).last().unwrap()`: the final (possibly short)
32-byte chunk; panics on empty data. -/
def last_chunk_32 (data : Bytes) : Bytes := data.drop (((data.length - 1) / 32) * 32)

/-- Modelled from the spec: the SQL of `signer_metadata_by_key.sql`
executed by `SignerRow::get_by_key` is not under `src/`.  Per the spec,
a Remove/AdminReset "looks up the existing SignerRecord by key to
retrieve its key type … and carries the existing metadata forward", and
"fails if no existing signer row matches the key" (`fetch_one` returns
a row-not-found `Err`). -/
def SignerRow.get_by_key (store : Store) (key : Bytes) : EResult (Int × SignerRequestMetadata) :=
  match store.signers.find? (fun r => r.key == key) with
  | some r => .ok (r.key_type, r.metadata)
  | none => .error (.error "no rows returned by a query that expected to return at least one row")

/-- The `Contract::process_remove_log`: reads `topics[1]` (fid) and
`topics[2]` (key hash, only logged), takes the last 32-byte data chunk
as the key, looks the signer up in the store (an `Err` when absent,
propagated with `?`), and asserts `key_type == 1` (a panic when not). -/
def process_remove_log (store : Store) (log : Log) (chain_id timestamp uid : Nat) :
    EResult ((Bytes × ChainEventRow) × Nat) :=
  match log.topics with
  | _t0 :: t1 :: _t2 :: _ =>
    if log.data.isEmpty then .error .panic
    else
      match SignerRow.get_by_key store (last_chunk_32 log.data) with
      | .error f => .error f
      | .ok km =>
        if km.1 = 1 then
          match log.block_number, log.block_hash, log.transaction_hash,
              log.log_index, log.transaction_index with
          | some bn, some bh, some th, some li, some ti =>
            if bn < 2 ^ 32 ∧ li < 2 ^ 32 ∧ ti < 2 ^ 32 ∧ t1 < 2 ^ 64 then
              .ok ((last_chunk_32 log.data, ChainEventRow.new uid
                { type := EVENT_TYPE_SIGNER, chain_id, block_number := bn
                  block_hash := wordBytes bh, block_timestamp := timestamp
                  transaction_hash := wordBytes th, log_index := li, fid := t1
                  body := some (.SignerEventBody
                    { key := last_chunk_32 log.data, key_type := km.1.toNat
                      event_type := SIGNER_EVENT_TYPE_REMOVE, metadata := km.2
                      metadata_type := 1 })
                  tx_index := ti, version := 2 } log.data), uid + 1)
            else .error .panic
          | _, _, _, _, _ => .error .panic
        else .error .panic
  | _ => .error .panic

/-- The `Contract::process_admin_reset_log`: identical to the Remove
processing except the body's event type (the source asserts
`key_type == 1` before building the body here, with the same observable
outcome). -/
def process_admin_reset_log (store : Store) (log : Log) (chain_id timestamp uid : Nat) :
    EResult ((Bytes × ChainEventRow) × Nat) :=
  match log.topics with
  | _t0 :: t1 :: _t2 :: _ =>
    if log.data.isEmpty then .error .panic
    else
      match SignerRow.get_by_key store (last_chunk_32 log.data) with
      | .error f => .error f
      | .ok km =>
        if km.1 = 1 then
          match log.block_number, log.block_hash, log.transaction_hash,
              log.log_index, log.transaction_index with
          | some bn, some bh, some th, some li, some ti =>
            if bn < 2 ^ 32 ∧ li < 2 ^ 32 ∧ ti < 2 ^ 32 ∧ t1 < 2 ^ 64 then
              .ok ((last_chunk_32 log.data, ChainEventRow.new uid
                { type := EVENT_TYPE_SIGNER, chain_id, block_number := bn
                  block_hash := wordBytes bh, block_timestamp := timestamp
                  transaction_hash := wordBytes th, log_index := li, fid := t1
                  body := some (.SignerEventBody
                    { key := last_chunk_32 log.data, key_type := km.1.toNat
                      event_type := SIGNER_EVENT_TYPE_ADMIN_RESET, metadata := km.2
                      metadata_type := 1 })
                  tx_index := ti, version := 2 } log.data), uid + 1)
            else .error .panic
          | _, _, _, _, _ => .error .panic
        else .error .panic
  | _ => .error .panic

/-- The `Contract::process_migrated_log`: `parse_log(...).unwrap()` (a
parse failure panics); `keysMigratedAt.as_u64() as u32` panics above
`2^64` and then truncates to 32 bits; the event's fid is 0. -/
def process_migrated_log (log : Log) (chain_id timestamp uid : Nat) :
    EResult (ChainEventRow × Nat) :=
  match unwrapResult (parse_log_migrated log) with
  | .error f => .error f
  | .ok parsed =>
    if parsed.keysMigratedAt < 2 ^ 64 then
      let body : SignerMigratedEventBody := { migrated_at := parsed.keysMigratedAt % 2 ^ 32 }
      match log.block_number, log.block_hash, log.transaction_hash,
          log.log_index, log.transaction_index with
      | some bn, some bh, some th, some li, some ti =>
        if bn < 2 ^ 32 ∧ li < 2 ^ 32 ∧ ti < 2 ^ 32 then
          let onchain_event : OnChainEvent :=
            { type := EVENT_TYPE_SIGNER_MIGRATED, chain_id, block_number := bn
              block_hash := wordBytes bh, block_timestamp := timestamp
              transaction_hash := wordBytes th, log_index := li, fid := 0
              body := some (.SignerMigratedEventBody body), tx_index := ti, version := 2 }
          .ok (ChainEventRow.new uid onchain_event log.data, uid + 1)
        else .error .panic
      | _, _, _, _, _ => .error .panic
    else .error .panic

/-! ## Storage-registry event processing (`storage_registry.rs`) -/

/-- The fixed rent period: 395 days in seconds. -/
def RENT_PERIOD : Nat := 395 * 24 * 60 * 60

/-- The `Contract::process_rent_log`: `parse_log(...).unwrap()` (a parse
failure panics); `units.as_u32()` panics above `2^32`.  The source
computes `expiry = parsed_log.units.as_u32() + 395 * 24 * 60 * 60` —
from the *units* field, not from the rent timestamp — and stores
`rented_at = 0` in the derived row; u32 addition wraps in release
builds, made explicit by the `% 2 ^ 32`. -/
def process_rent_log (log : Log) (chain_id timestamp uid : Nat) :
    EResult ((StorageAllocationRow × ChainEventRow) × Nat) :=
  match unwrapResult (parse_log_rent log) with
  | .error f => .error f
  | .ok parsed =>
    if parsed.units < 2 ^ 32 ∧ parsed.fid < 2 ^ 64 then
      let units := parsed.units
      let expiry := (parsed.units + RENT_PERIOD) % 2 ^ 32
      let fid := parsed.fid
      let payer := addressBytes parsed.payer
      let body : StorageRentEventBody := { payer := payer, units := units, expiry := expiry }
      match log.block_number, log.block_hash, log.transaction_hash,
          log.log_index, log.transaction_index with
      | some bn, some bh, some th, some li, some ti =>
        if bn < 2 ^ 32 ∧ li < 2 ^ 32 ∧ ti < 2 ^ 32 then
          let onchain_event : OnChainEvent :=
            { type := EVENT_TYPE_STORAGE_RENT, chain_id, block_number := bn
              block_hash := wordBytes bh, block_timestamp := timestamp
              transaction_hash := wordBytes th, log_index := li, fid := fid
              body := some (.StorageRentEventBody body), tx_index := ti, version := 2 }
          let event_row := ChainEventRow.new uid onchain_event log.data
          let storage_allocation := StorageAllocationRow.new (uid + 1) 0 expiry uid fid units payer
          .ok ((storage_allocation, event_row), uid + 2)
        else .error .panic
      | _, _, _, _, _ => .error .panic
    else .error .panic

/-- The `Contract::process_set_max_units_log`: decoded and discarded
(`parse_log(...).unwrap()`, two `as_u32` casts; no row is produced). -/
def process_set_max_units_log (log : Log) : EResult Unit :=
  match unwrapResult (parse_log_set_max_units log) with
  | .error f => .error f
  | .ok parsed =>
    if parsed.oldMax < 2 ^ 32 ∧ parsed.newMax < 2 ^ 32 then .ok () else .error .panic

/-- The `Contract::process_deprecation_timestamp_log`: decoded and
discarded. -/
def process_deprecation_timestamp_log (log : Log) : EResult Unit :=
  match unwrapResult (parse_log_set_deprecation_timestamp log) with
  | .error f => .error f
  | .ok parsed =>
    if parsed.oldMax < 2 ^ 32 ∧ parsed.newMax < 2 ^ 32 then .ok () else .error .panic

/-! ## Bulk SQL execution (`db.rs` + the store's schema)

The `persist_many_*` functions build SQL strings with
`generate_bulk_insert_queries` and execute them inside one `sqlx`
transaction.  Those generated strings are plain
`INSERT INTO … VALUES …` statements — none of them carries an
`ON CONFLICT` clause (only the *unused* parameterized `bulk_insert`
helpers and the singular `persist_add_log` path are conflict-tolerant).

Modelled from the spec: the migrations defining the table schemas are
not under `src/`; per spec §6 the schema is
`chain_events(… UNIQUE(tx_hash, log_index))`, `fids(fid PK, …)`,
`signers(… UNIQUE(fid, key))`, and `storage_allocations` with no
natural unique key.  A plain `INSERT` that violates one of these
constraints fails with a database error (which aborts and rolls back
the enclosing transaction).

Statement chunking (`MAX_PARAMS = 999`) splits the row list into
successive statements inside the same transaction; since the
transaction is all-or-nothing, executing the inserts row by row is
semantically identical, which is how this model renders them. -/

/-- Plain `INSERT INTO chain_events …`: fails on a duplicate
`(transaction_hash, log_index)` dedup key. -/
def insert_chain_event (s : Store) (r : ChainEventRow) : EResult Store :=
  if s.chain_events.any (fun e =>
      e.transaction_hash == r.transaction_hash && e.log_index == r.log_index) then
    .error (.error "UNIQUE constraint failed: chain_events.transaction_hash, chain_events.log_index")
  else .ok { s with chain_events := s.chain_events ++ [r] }

def execute_chain_event_inserts (s : Store) : List ChainEventRow → EResult Store
  | [] => .ok s
  | r :: rest =>
    match insert_chain_event s r with
    | .error f => .error f
    | .ok s' => execute_chain_event_inserts s' rest

/-- Plain `INSERT INTO fids …`: fails on a duplicate `fid` primary key. -/
def insert_fid (s : Store) (r : FidRow) : EResult Store :=
  if s.fids.any (fun e => e.fid == r.fid) then
    .error (.error "UNIQUE constraint failed: fids.fid")
  else .ok { s with fids := s.fids ++ [r] }

def execute_fid_inserts (s : Store) : List FidRow → EResult Store
  | [] => .ok s
  | r :: rest =>
    match insert_fid s r with
    | .error f => .error f
    | .ok s' => execute_fid_inserts s' rest

/-- Plain `INSERT INTO signers …`: fails on a duplicate `(fid, key)`. -/
def insert_signer (s : Store) (r : SignerRow) : EResult Store :=
  if s.signers.any (fun e => e.fid == r.fid && e.key == r.key) then
    .error (.error "UNIQUE constraint failed: signers.fid, signers.key")
  else .ok { s with signers := s.signers ++ [r] }

def execute_signer_inserts (s : Store) : List SignerRow → EResult Store
  | [] => .ok s
  | r :: rest =>
    match insert_signer s r with
    | .error f => .error f
    | .ok s' => execute_signer_inserts s' rest

/-- Plain `INSERT INTO storage_allocations …`: no natural unique key,
so it always succeeds. -/
def execute_storage_allocation_inserts (s : Store) (rows : List StorageAllocationRow) :
    EResult Store :=
  .ok { s with storage_allocations := s.storage_allocations ++ rows }

/-- The `FidRow::generate_bulk_transfer_queries` + execution:
`UPDATE fids SET custody_address = CASE fid WHEN … END WHERE fid IN (…)`.
A `CASE` takes its first matching arm; rows whose fid is absent from
the update list are untouched, and updates for absent fids affect no
row (and raise no error). -/
def execute_fid_transfer_updates (s : Store) (transfers : List FidTransfer) : Store :=
  { s with fids := s.fids.map (fun row =>
      match transfers.find? (fun tr => (tr.fid : Int) == row.fid) with
      | some tr => { row with custody_address := tr.custody_address }
      | none => row) }

/-- The `FidRow::generate_bulk_update_recovery_address_queries` + execution. -/
def execute_fid_recovery_updates (s : Store) (updates : List FidRecoveryUpdate) : Store :=
  { s with fids := s.fids.map (fun row =>
      match updates.find? (fun u => (u.fid : Int) == row.fid) with
      | some u => { row with recovery_address := u.recovery_address }
      | none => row) }

/-- The `SignerRow::generate_bulk_remove_update_queries` + execution.  The
generated string keeps its `?` placeholders and then concatenates the
parameter values as text *after* the closing parenthesis
(`sql + params.join(", ") + query_params.join(", ")`), and
`persist_many_remove_logs` executes it without binding any value — so
whenever there is at least one update the statement is syntactically
invalid and execution fails. -/
def execute_signer_remove_update_queries (s : Store) (updates : List (Bytes × Nat)) :
    EResult Store :=
  if updates.isEmpty then .ok s
  else .error (.error "near \x7b?\x7d: syntax error in generated remove-update statement")

/-! ## Batch persistence (`persist_many_*`)

Each `persist_many_*` decodes all logs first (any failure aborts before
any write), then opens one transaction, executes its bulk statements,
and commits.  An `EResult` error anywhere means the transaction never
commits: the caller's store is unchanged (rollback). -/

/-- The shared decode loop
`for (log, timestamp) in logs.iter().zip(timestamps.iter())`, threading
the fresh-id counter. -/
def process_pairs {β : Type} (f : Log → Nat → Nat → EResult (β × Nat)) :
    List (Log × Nat) → Nat → EResult (List β × Nat)
  | [], uid => .ok ([], uid)
  | (l, t) :: rest, uid =>
    match f l t uid with
    | .error fl => .error fl
    | .ok (b, uid') =>
      match process_pairs f rest uid' with
      | .error fl => .error fl
      | .ok (bs, uid'') => .ok (b :: bs, uid'')

/-- The `Contract::persist_many_register_logs`: decode, then insert the
chain-event rows and the fid rows in one transaction. -/
def persist_many_register_logs (store : Store) (logs : List Log) (chain_id : Nat)
    (timestamps : List Nat) (uid : Nat) : EResult (Store × Nat) :=
  match process_pairs (fun l t u => process_register_log l chain_id t u)
      (logs.zip timestamps) uid with
  | .error f => .error f
  | .ok (rows, uid') =>
    match execute_chain_event_inserts store (rows.map (·.2)) with
    | .error f => .error f
    | .ok s1 =>
      match execute_fid_inserts s1 (rows.map (·.1)) with
      | .error f => .error f
      | .ok s2 => .ok (s2, uid')

/-- The `Contract::persist_many_transfer_logs`: chain-event inserts plus
custody-address updates in one transaction. -/
def persist_many_transfer_logs (store : Store) (logs : List Log) (chain_id : Nat)
    (timestamps : List Nat) (uid : Nat) : EResult (Store × Nat) :=
  match process_pairs (fun l t u => process_transfer_log l chain_id t u)
      (logs.zip timestamps) uid with
  | .error f => .error f
  | .ok (rows, uid') =>
    match execute_chain_event_inserts store (rows.map (·.2)) with
    | .error f => .error f
    | .ok s1 => .ok (execute_fid_transfer_updates s1 (rows.map (·.1)), uid')

/-- The `Contract::persist_many_recovery_logs`. -/
def persist_many_recovery_logs (store : Store) (logs : List Log) (chain_id : Nat)
    (timestamps : List Nat) (uid : Nat) : EResult (Store × Nat) :=
  match process_pairs (fun l t u => process_recovery_log l chain_id t u)
      (logs.zip timestamps) uid with
  | .error f => .error f
  | .ok (rows, uid') =>
    match execute_chain_event_inserts store (rows.map (·.2)) with
    | .error f => .error f
    | .ok s1 => .ok (execute_fid_transfer_updates s1 (rows.map (·.1)), uid')

/-- The `Contract::persist_many_change_recovery_address_logs`. -/
def persist_many_change_recovery_address_logs (store : Store) (logs : List Log)
    (chain_id : Nat) (timestamps : List Nat) (uid : Nat) : EResult (Store × Nat) :=
  match process_pairs (fun l t u => process_change_recovery_address_log l chain_id t u)
      (logs.zip timestamps) uid with
  | .error f => .error f
  | .ok (rows, uid') =>
    match execute_chain_event_inserts store (rows.map (·.2)) with
    | .error f => .error f
    | .ok s1 => .ok (execute_fid_recovery_updates s1 (rows.map (·.1)), uid')

/-- The `Contract::persist_many_add_logs`: chain-event inserts plus plain
signer inserts (the bulk signer statement has no `ON CONFLICT` clause,
unlike the singular `persist_add_log` path). -/
def persist_many_add_logs (store : Store) (logs : List Log) (chain_id : Nat)
    (timestamps : List Nat) (uid : Nat) : EResult (Store × Nat) :=
  match process_pairs (fun l t u => process_add_log l chain_id t u)
      (logs.zip timestamps) uid with
  | .error f => .error f
  | .ok (rows, uid') =>
    match execute_chain_event_inserts store (rows.map (·.2)) with
    | .error f => .error f
    | .ok s1 =>
      match execute_signer_inserts s1 (rows.map (·.1)) with
      | .error f => .error f
      | .ok s2 => .ok (s2, uid')

/-- The `Contract::persist_many_remove_logs`: chain-event inserts plus the
(malformed, see `execute_signer_remove_update_queries`) remove-update
statements. -/
def persist_many_remove_logs (store : Store) (logs : List Log) (chain_id : Nat)
    (timestamps : List Nat) (uid : Nat) : EResult (Store × Nat) :=
  match process_pairs (fun l t u => process_remove_log store l chain_id t u)
      (logs.zip timestamps) uid with
  | .error f => .error f
  | .ok (rows, uid') =>
    match execute_chain_event_inserts store (rows.map (·.2)) with
    | .error f => .error f
    | .ok s1 =>
      match execute_signer_remove_update_queries s1
          (rows.map (fun p => (p.1, p.2.id))) with
      | .error f => .error f
      | .ok s2 => .ok (s2, uid')

/-- The `Contract::persist_many_admin_reset_logs`: the update list
`(key_bytes, event_row.id)` is accumulated exactly as for Remove but
*never executed* — the transaction only inserts the chain-event rows
(the source carries a `TODO: invalidate keyBytes …` comment where the
signer update would be). -/
def persist_many_admin_reset_logs (store : Store) (logs : List Log) (chain_id : Nat)
    (timestamps : List Nat) (uid : Nat) : EResult (Store × Nat) :=
  match process_pairs (fun l t u => process_admin_reset_log store l chain_id t u)
      (logs.zip timestamps) uid with
  | .error f => .error f
  | .ok (rows, uid') =>
    match execute_chain_event_inserts store (rows.map (·.2)) with
    | .error f => .error f
    | .ok s1 => .ok (s1, uid')

/-- The `Contract::persist_many_migrated_logs`: chain-event inserts only. -/
def persist_many_migrated_logs (store : Store) (logs : List Log) (chain_id : Nat)
    (timestamps : List Nat) (uid : Nat) : EResult (Store × Nat) :=
  match process_pairs (fun l t u => process_migrated_log l chain_id t u)
      (logs.zip timestamps) uid with
  | .error f => .error f
  | .ok (rows, uid') =>
    match execute_chain_event_inserts store rows with
    | .error f => .error f
    | .ok s1 => .ok (s1, uid')

/-- The `Contract::persist_many_rent_logs`: chain-event inserts plus
storage-allocation inserts in one transaction. -/
def persist_many_rent_logs (store : Store) (logs : List Log) (chain_id : Nat)
    (timestamps : List Nat) (uid : Nat) : EResult (Store × Nat) :=
  match process_pairs (fun l t u => process_rent_log l chain_id t u)
      (logs.zip timestamps) uid with
  | .error f => .error f
  | .ok (rows, uid') =>
    match execute_chain_event_inserts store (rows.map (·.2)) with
    | .error f => .error f
    | .ok s1 =>
      match execute_storage_allocation_inserts s1 (rows.map (·.1)) with
      | .error f => .error f
      | .ok s2 => .ok (s2, uid')

/-- The `Contract::persist_many_set_max_units_logs`: decodes every zipped
log (a failure aborts) and stores nothing. -/
def persist_many_set_max_units_logs (store : Store) (logs : List Log) (_chain_id : Nat)
    (timestamps : List Nat) (uid : Nat) : EResult (Store × Nat) :=
  match process_pairs (fun l _t u => (process_set_max_units_log l).map (fun _ => ((), u)))
      (logs.zip timestamps) uid with
  | .error f => .error f
  | .ok (_, uid') => .ok (store, uid')

/-- The `Contract::persist_many_deprecation_timestamp_logs`: iterates over
*all* logs (`for log in logs` — no timestamp zip) and stores nothing. -/
def persist_many_deprecation_timestamp_logs (store : Store) (logs : List Log)
    (_chain_id : Nat) (_timestamps : List Nat) (uid : Nat) : EResult (Store × Nat) :=
  match logs.foldlM (fun (_ : Unit) l => process_deprecation_timestamp_log l) () with
  | .error f => .error f
  | .ok _ => .ok (store, uid)

/-! ## The upstream RPC retry loops (`utils.rs`)

`get_logs` and `get_block_timestamp` call the provider in a `loop`.
On `Err(e)` they retry (after a 500 ms sleep) iff `e.to_string()`
contains `"429"`; any other error returns immediately.  The provider
is modelled as the list of responses it would give to the successive
attempts; an exhausted list (`none` result) models a call that never
returns (the loop retries forever). -/

/-- One provider response: a payload or an error message. -/
inductive RpcResult (α : Type) where
  | okr (v : α)
  | errr (msg : String)
deriving DecidableEq, Repr

/-- Substring containment on character lists: `pat` occurs (as a
contiguous run) in the list. -/
def listContainsSub (pat : List Char) : List Char → Bool
  | [] => pat.isEmpty
  | c :: rest => pat.isPrefixOf (c :: rest) || listContainsSub pat rest

/-- Rust's `str::contains`. -/
def strContains (s pat : String) : Bool := listContainsSub pat.data s.data

/-- The `get_logs`' retry loop over the provider's response script. -/
def get_logs_loop {α : Type} : List (RpcResult α) → Option (Except String α)
  | [] => none
  | .okr v :: _ => some (.ok v)
  | .errr m :: rest =>
    if strContains m "429" then get_logs_loop rest else some (.error m)

/-- A block as returned by `eth_getBlockByHash`: just its timestamp. -/
structure RpcBlock where
  timestamp : Nat
deriving DecidableEq, Repr

/-- The `get_block_timestamp`'s retry loop: `Ok(Some(block))` breaks the
loop, `Ok(None)` is the immediate error `"Block not found"`, a 429
error retries, any other error returns immediately.  After the loop,
`block.timestamp.as_u32()` panics above `2^32` (modelled as `none`,
distinguishable from the scripts used here which keep it in range;
the claims never exercise the overflow). -/
def get_block_timestamp_loop : List (RpcResult (Option RpcBlock)) → Option (Except String Nat)
  | [] => none
  | .okr (some block) :: _ =>
    if block.timestamp < 2 ^ 32 then some (.ok block.timestamp) else none
  | .okr none :: _ => some (.error "Block not found")
  | .errr m :: rest =>
    if strContains m "429" then get_block_timestamp_loop rest else some (.error m)

/-! ## The Indexer (`indexer.rs`) -/

def FARCASTER_START_BLOCK : Nat := 111816370

/-- Number of blocks to read at a time. -/
def BLOCK_INTERVAL : Nat := 2000

/-- The event kinds the indexer watches, one per signature topic. -/
inductive EventKind where
  | register | transfer | recovery | changeRecoveryAddress
  | add | remove | adminReset | migrated
  | rent | setMaxUnits | deprecationTimestamp
deriving DecidableEq, Repr

/-- The upstream chain: every log the contracts ever emitted, tagged
with the event kind its signature topic selects. -/
abbrev ChainLogs := List (EventKind × Log)

/-- A `get_*_logs` call: the single-topic filtered `eth_getLogs` over
`[start_block, end_block]`.  Only mined logs (with a block number) in
range are returned; the `removed` flag is not consulted. -/
def get_logs_in_range (chain : ChainLogs) (k : EventKind) (start_block end_block : Nat) :
    List Log :=
  (chain.filter (fun p =>
    p.1 == k &&
      match p.2.block_number with
      | some bn => decide (start_block ≤ bn) && decide (bn ≤ end_block)
      | none => false)).map (·.2)

/-- The `CollectedLogs`. -/
structure CollectedLogs where
  register : List Log
  transfer : List Log
  recovery : List Log
  change_recovery_address : List Log
  add : List Log
  remove : List Log
  admin_reset : List Log
  migrated : List Log
  rent : List Log
  set_max_units : List Log
  deprecation_timestamp : List Log
deriving DecidableEq, Repr

/-- The `Indexer::collect_logs`: the eleven concurrent per-topic fetches
(joined before anything else happens). -/
def collect_logs (chain : ChainLogs) (start_block end_block : Nat) : CollectedLogs :=
  { register := get_logs_in_range chain .register start_block end_block
    transfer := get_logs_in_range chain .transfer start_block end_block
    recovery := get_logs_in_range chain .recovery start_block end_block
    change_recovery_address :=
      get_logs_in_range chain .changeRecoveryAddress start_block end_block
    add := get_logs_in_range chain .add start_block end_block
    remove := get_logs_in_range chain .remove start_block end_block
    admin_reset := get_logs_in_range chain .adminReset start_block end_block
    migrated := get_logs_in_range chain .migrated start_block end_block
    rent := get_logs_in_range chain .rent start_block end_block
    set_max_units := get_logs_in_range chain .setMaxUnits start_block end_block
    deprecation_timestamp :=
      get_logs_in_range chain .deprecationTimestamp start_block end_block }

/-- The indexer's mutable state: the store, the per-batch
`block_timestamp_cache`, and the fresh-row-id supply. -/
structure IndexerState where
  store : Store
  cache : List (Nat × Nat)
  next_id : Nat
deriving DecidableEq, Repr

/-- Cache lookup (`HashMap::get`). -/
def cache_get (cache : List (Nat × Nat)) (h : Nat) : Option Nat :=
  (cache.find? (fun p => p.1 == h)).map (·.2)

/-- The loop body of `Indexer::fetch_event_timestamps`: for each log
that has a block hash, push its timestamp (from the cache, or from the
provider — `oracle` — inserting into the cache); logs without a block
hash contribute *no* timestamp.  Returns the final cache and the
timestamp list. -/
def fetch_timestamps_go (oracle : Nat → Nat) (cache : List (Nat × Nat)) :
    List Log → List (Nat × Nat) × List Nat
  | [] => (cache, [])
  | e :: rest =>
    match e.block_hash with
    | some h =>
      match cache_get cache h with
      | some t =>
        let (c, ts) := fetch_timestamps_go oracle cache rest
        (c, t :: ts)
      | none =>
        let t := oracle h
        let (c, ts) := fetch_timestamps_go oracle (cache ++ [(h, t)]) rest
        (c, t :: ts)
    | none => fetch_timestamps_go oracle cache rest

/-- The `Indexer::fetch_event_timestamps`: returns the events unchanged
together with the timestamps (one per event that has a block hash). -/
def fetch_event_timestamps (oracle : Nat → Nat) (st : IndexerState) (events : List Log) :
    IndexerState × List Log × List Nat :=
  let (c, ts) := fetch_timestamps_go oracle st.cache events
  ({ st with cache := c }, events, ts)

/-- Dispatch a kind to its `persist_many_*` function. -/
def persist_many (k : EventKind) (store : Store) (logs : List Log) (chain_id : Nat)
    (timestamps : List Nat) (uid : Nat) : EResult (Store × Nat) :=
  match k with
  | .register => persist_many_register_logs store logs chain_id timestamps uid
  | .transfer => persist_many_transfer_logs store logs chain_id timestamps uid
  | .recovery => persist_many_recovery_logs store logs chain_id timestamps uid
  | .changeRecoveryAddress =>
    persist_many_change_recovery_address_logs store logs chain_id timestamps uid
  | .add => persist_many_add_logs store logs chain_id timestamps uid
  | .remove => persist_many_remove_logs store logs chain_id timestamps uid
  | .adminReset => persist_many_admin_reset_logs store logs chain_id timestamps uid
  | .migrated => persist_many_migrated_logs store logs chain_id timestamps uid
  | .rent => persist_many_rent_logs store logs chain_id timestamps uid
  | .setMaxUnits => persist_many_set_max_units_logs store logs chain_id timestamps uid
  | .deprecationTimestamp =>
    persist_many_deprecation_timestamp_logs store logs chain_id timestamps uid

/-- The `Indexer::sync_*_logs`: fetch the timestamps, then
`persist_many_*(…).unwrap()` — a persistence `Err` is unwrapped into a
panic; on failure the transaction never committed, so the store is the
one from before the call. -/
def sync_logs (oracle : Nat → Nat) (chain_id : Nat) (k : EventKind) (st : IndexerState)
    (logs : List Log) : IndexerState × Option Failure :=
  let (st1, events, timestamps) := fetch_event_timestamps oracle st logs
  match persist_many k st1.store events chain_id timestamps st1.next_id with
  | .ok (s', uid') => ({ st1 with store := s', next_id := uid' }, none)
  | .error _ => (st1, some .panic)

/-- The eleven per-kind steps of one window of `Indexer::sync`, in
source order, each guarded by `len() > 0` and aborting the window on
failure. -/
def window_steps (c : CollectedLogs) : List (EventKind × List Log) :=
  [(.register, c.register), (.transfer, c.transfer), (.recovery, c.recovery),
   (.changeRecoveryAddress, c.change_recovery_address),
   (.add, c.add), (.remove, c.remove), (.adminReset, c.admin_reset),
   (.migrated, c.migrated),
   (.rent, c.rent), (.setMaxUnits, c.set_max_units),
   (.deprecationTimestamp, c.deprecation_timestamp)]

/-- One window (`[start, start + BLOCK_INTERVAL]`) of `Indexer::sync`:
collect the logs, then run the per-kind steps sequentially, stopping at
the first failure. -/
def process_window (chain : ChainLogs) (oracle : Nat → Nat) (chain_id : Nat)
    (st : IndexerState) (start_block end_block : Nat) : IndexerState × Option Failure :=
  let collected := collect_logs chain start_block end_block
  (window_steps collected).foldl (fun acc step =>
    match acc with
    | (st', some f) => (st', some f)
    | (st', none) =>
      if step.2.length > 0 then sync_logs oracle chain_id step.1 st' step.2
      else (st', none)) (st, none)

/-- The `while current_block <= end_block` loop of `Indexer::sync`:
each window spans `[current, current + BLOCK_INTERVAL]` (the *full*
interval, even when it reaches past `end_block`); on success the
timestamp cache is cleared and the loop resumes at the block after the
window's end; on failure the loop stops with the state as committed so
far. -/
def sync_windows (chain : ChainLogs) (oracle : Nat → Nat) (chain_id : Nat)
    (st : IndexerState) (current end_block : Nat) : IndexerState × Option Failure :=
  if _h : current ≤ end_block then
    match process_window chain oracle chain_id st current (current + BLOCK_INTERVAL) with
    | (st', some f) => (st', some f)
    | (st', none) =>
      sync_windows chain oracle chain_id { st' with cache := [] }
        (current + BLOCK_INTERVAL + 1) end_block
  else (st, none)
termination_by end_block + 1 - current
decreasing_by simp [BLOCK_INTERVAL]; omega

/-- The `Indexer::sync`. -/
def sync (chain : ChainLogs) (oracle : Nat → Nat) (chain_id : Nat) (st : IndexerState)
    (start_block end_block : Nat) : IndexerState × Option Failure :=
  sync_windows chain oracle chain_id st start_block end_block

/-- Modelled from the spec: the SQL of `max_block_number.sql` executed
by `ChainEventRow::max_block_number` is not under `src/`.  Per spec
§4.6 the cursor is "the maximum block number already present in the
chain-event table"; the caller's `if max_block_num == 0` fallback shows
the query coalesces an empty table to 0. -/
def max_block_number (s : Store) : Nat :=
  (s.chain_events.map (·.block_number)).foldl max 0

/-- The `Indexer::get_start_block`: the maximum persisted block number plus
one, or the hard-coded contract-deployment block when the table is
empty. -/
def get_start_block (s : Store) : Nat :=
  let max_block_num := max_block_number s
  if max_block_num = 0 then FARCASTER_START_BLOCK else max_block_num + 1

/-! ## Helper projections -/

/-- The `expiry` field of a storage-rent body, when the body is one. -/
def body_expiry : Option Body → Option Nat
  | some (.StorageRentEventBody b) => some b.expiry
  | _ => none

/-- The dedup key of a chain-event row. -/
def event_key (r : ChainEventRow) : Bytes × Nat := (r.transaction_hash, r.log_index)

/-! ## Concrete test fixtures

Concrete logs and stores used to evaluate the embedded code at
specific inputs.  Block numbers sit at the contract-deployment block
`FARCASTER_START_BLOCK` (111816370) so that single-window `sync` runs
start from a realistic cursor position. -/

/-- A fresh indexer over an empty store. -/
def initial_state : IndexerState := ⟨emptyStore, [], 0⟩

/-- A well-formed `Register` log: `Register(to = 0xAA…, id = 42,
recovery = 0xBB…)` at block 111816370, tx hash 1, log index 0. -/
def c1_log : Log :=
  { topics := [0, 0xAA, 42], data := natToBytes 32 0xBB,
    block_hash := some 5, block_number := some 111816370,
    transaction_hash := some 1, transaction_index := some 0,
    log_index := some 0, removed := some false }

/-- The store after persisting `c1_log` once into an empty store. -/
def c1_s1 : Store :=
  match persist_many_register_logs emptyStore [c1_log] 10 [100] 0 with
  | .ok (s, _) => s
  | .error _ => emptyStore

/-- A well-formed `Register` log at the window-start block. -/
def c2_reg_log : Log :=
  { topics := [0, 0xAA, 42], data := natToBytes 32 0xBB,
    block_hash := some 5, block_number := some 111816370,
    transaction_hash := some 1, transaction_index := some 0,
    log_index := some 0, removed := some false }

/-- A malformed `Rent` log (one topic instead of three) one block
later in the same window: `parse_log(...).unwrap()` panics on it. -/
def c2_bad_rent_log : Log :=
  { topics := [0], data := natToBytes 32 5,
    block_hash := some 6, block_number := some 111816371,
    transaction_hash := some 2, transaction_index := some 0,
    log_index := some 1, removed := some false }

def c2_chain : ChainLogs := [(.register, c2_reg_log), (.rent, c2_bad_rent_log)]

def c2_oracle : Nat → Nat := fun _ => 777

/-- A well-formed `Rent` log: `Rent(payer = 0xCC…, fid = 7, units = 5)`. -/
def c3_rent_log : Log :=
  { topics := [0, 0xCC, 7], data := natToBytes 32 5,
    block_hash := some 5, block_number := some 111816370,
    transaction_hash := some 3, transaction_index := some 0,
    log_index := some 0, removed := some false }

/-- A well-formed `Register` log (fid 42). -/
def c4_good_log : Log :=
  { topics := [0, 0xAA, 42], data := natToBytes 32 0xBB,
    block_hash := some 5, block_number := some 111816370,
    transaction_hash := some 1, transaction_index := some 0,
    log_index := some 0, removed := some false }

/-- A malformed `Register` log in the same window: only two topics, so
`parse_log` returns a decode `Err`. -/
def c4_bad_log : Log :=
  { topics := [0, 0xAA], data := natToBytes 32 0xBB,
    block_hash := some 6, block_number := some 111816372,
    transaction_hash := some 2, transaction_index := some 0,
    log_index := some 1, removed := some false }

def c4_oracle : Nat → Nat := fun _ => 777

/-- A well-formed `Register` log at block 111816371 = `b + 1` for a
`sync(111816370, 111816370)` run: inside the fetched window
`[111816370, 111818370]` but past the requested `end_block`. -/
def c5_log : Log :=
  { topics := [0, 0xAA, 42], data := natToBytes 32 0xBB,
    block_hash := some 5, block_number := some 111816371,
    transaction_hash := some 1, transaction_index := some 0,
    log_index := some 0, removed := some false }

def c5_chain : ChainLogs := [(.register, c5_log)]

def c5_oracle : Nat → Nat := fun _ => 777

/-- A well-formed `Register` log at exactly block 111816370 — the
`end_block` of a `sync(111816370, 111816370)` run. -/
def c5_exact_log : Log :=
  { topics := [0, 0xAA, 42], data := natToBytes 32 0xBB,
    block_hash := some 5, block_number := some 111816370,
    transaction_hash := some 9, transaction_index := some 0,
    log_index := some 0, removed := some false }

def c5_exact_chain : ChainLogs := [(.register, c5_exact_log)]

/-- A well-formed `Register` log that the upstream has marked
`removed: true` (a reorg'd-away log). -/
def c6_removed_log : Log :=
  { topics := [0, 0xAA, 42], data := natToBytes 32 0xBB,
    block_hash := some 5, block_number := some 111816370,
    transaction_hash := some 1, transaction_index := some 0,
    log_index := some 0, removed := some true }

def c6_chain : ChainLogs := [(.register, c6_removed_log)]

def c6_oracle : Nat → Nat := fun _ => 777

/-- An `Add` log whose data is empty: far shorter than the ABI shape
(≥ 224 bytes) the decoder expects, so `data[128..160]` is out of
bounds. -/
def c7_add_log : Log :=
  { topics := [0, 7, 1], data := [],
    block_hash := some 5, block_number := some 111816370,
    transaction_hash := some 4, transaction_index := some 0,
    log_index := some 0, removed := some false }

/-- The 32-byte signer key used by the AdminReset fixture. -/
def c8_key : Bytes := natToBytes 32 9

def c8_metadata : SignerRequestMetadata :=
  { request_fid := 3, request_signer := addressBytes 0xDD, signature := [1, 2], deadline := 99 }

/-- An existing signer row for `c8_key` (key type 1, no remove
reference), as an earlier Add would have created it. -/
def c8_signer : SignerRow :=
  SignerRow.new 100 7 3 50 none 1 1 c8_key c8_metadata

/-- A store holding only that signer. -/
def c8_store : Store := { emptyStore with signers := [c8_signer] }

/-- An `AdminReset(fid = 7, keyHash, keyBytes = c8_key)` log; the key
bytes are the final 32-byte chunk of the data. -/
def c8_log : Log :=
  { topics := [0, 7, 3], data := c8_key,
    block_hash := some 5, block_number := some 111816380,
    transaction_hash := some 6, transaction_index := some 0,
    log_index := some 0, removed := some false }

/-- A log with no block hash yet (e.g. pending), followed by mined
logs: the input for the timestamp-alignment claim. -/
def c10_l0 : Log :=
  { topics := [0, 0xAA, 41], data := natToBytes 32 0xBB,
    block_hash := some 7, block_number := some 111816370,
    transaction_hash := some 1, transaction_index := some 0,
    log_index := some 0, removed := some false }

def c10_l1 : Log :=
  { topics := [0, 0xAA, 42], data := natToBytes 32 0xBB,
    block_hash := none, block_number := some 111816371,
    transaction_hash := some 2, transaction_index := some 0,
    log_index := some 1, removed := some false }

def c10_l2 : Log :=
  { topics := [0, 0xAA, 43], data := natToBytes 32 0xBB,
    block_hash := some 8, block_number := some 111816372,
    transaction_hash := some 3, transaction_index := some 0,
    log_index := some 2, removed := some false }

/-- Block 7 has timestamp 10, block 8 has timestamp 30. -/
def c10_oracle : Nat → Nat := fun h => if h = 7 then 10 else if h = 8 then 30 else 0

/-!
Theorems about the embedded synchronizer.
-/

/-- Claim C3 (code bug).  Storage-rent expiry: the claim (and the spec)
say `expiry = rent timestamp + 395 days`, for every value of `units`.
The code instead computes `expiry = units + 395 days` (and stores
`rented_at = 0`).  Evaluated at a Rent log with `units = 5` and block
timestamp 1 700 000 000: both the decoded body's `expiry` and the
derived row's `expires_at` are `5 + 34 128 000 = 34 128 005`, which is
not `1 700 000 000 + 34 128 000`. -/
theorem c3_rent_expiry_from_units :
    (process_rent_log c3_rent_log 10 1700000000 0).toOption.map
        (fun p => (p.1.1.expires_at, p.1.1.rented_at, body_expiry p.1.2.body,
          p.1.2.block_timestamp))
      = some (34128005, 0, some 34128005, 1700000000)
    ∧ 34128005 ≠ 1700000000 + RENT_PERIOD := by
  decide

/-- Claim C4 (code bug).  Decode-failure isolation: the claim (and the
spec) say a single malformed log is skipped and the rest of the window
is still persisted, with no error and no panic.  In the code the
decode `Err` propagates out of the `process_*` loop with `?` before
anything is written, and `sync_register_logs` unwraps it into a panic:
on a window holding one good and one malformed Register log, nothing
at all is persisted (the good log included) and the sync step panics. -/
theorem c4_decode_failure_aborts_batch :
    persist_many_register_logs emptyStore [c4_good_log, c4_bad_log] 10 [777, 777] 0
        = .error (.error "failed to parse Register log")
    ∧ (sync_logs c4_oracle 10 .register initial_state [c4_good_log, c4_bad_log]).1.store
        = emptyStore
    ∧ (sync_logs c4_oracle 10 .register initial_state [c4_good_log, c4_bad_log]).2
        = some .panic := by
  decide

/-- Claim C7 (code bug).  Add-event validation: the claim (and the spec)
say a malformed Add log yields a decode error value, not a crash.  The
code never returns an error from `process_add_log`: it indexes
`topics[1]`/`topics[2]`, slices `data[128..160]` and `data[190]`, and
unwraps the metadata decode, all of which panic on malformed input.
Evaluated at an Add log with empty data (shorter than the expected ABI
shape): the result is a panic, and the enclosing
`persist_many_add_logs` panics before persisting anything. -/
theorem c7_add_validation_panics :
    process_add_log c7_add_log 10 100 0 = .error .panic
    ∧ persist_many_add_logs emptyStore [c7_add_log] 10 [100] 0 = .error .panic
    ∧ c7_add_log.data.length = 0 := by
  decide

/-- Claim C8 (code bug).  AdminReset soft-close: the claim (and the
spec) say a successful `persist_many_admin_reset_logs` on an AdminReset
log for an existing signer sets that signer's remove-event reference.
The code accumulates the `(key, event id)` update list exactly as the
Remove path does but never executes it (the spot carries a `TODO`):
evaluated on a store holding the signer for `c8_key` (key type 1), the
call succeeds and inserts the chain-event row, yet the signer row's
`remove_chain_event_id` is still `NULL`. -/
theorem c8_admin_reset_does_not_soft_close :
    (match persist_many_admin_reset_logs c8_store [c8_log] 10 [100] 5 with
      | .ok (s, _) =>
        some (s.signers.map (fun r => r.remove_chain_event_id),
          s.chain_events.length, s.signers.length)
      | .error _ => none)
      = some ([none], 1, 1) := by
  decide

/-- Claim C9 (confirmed).  Rate-limit retry, for both `get_logs` and
`get_block_timestamp`: any finite run of rate-limited errors (message
containing `"429"`) before a success is retried transparently — the
caller gets exactly the one successful result and no error — while a
first response that is a non-rate-limited error is returned
immediately. -/
theorem c9_rate_limit_retry :
    (∀ (α : Type) (errs : List String) (v : α) (rest : List (RpcResult α)),
        (∀ e ∈ errs, strContains e "429" = true) →
        get_logs_loop (errs.map .errr ++ .okr v :: rest) = some (.ok v))
    ∧ (∀ (α : Type) (m : String) (rest : List (RpcResult α)),
        strContains m "429" = false →
        get_logs_loop (.errr m :: rest) = some (.error m))
    ∧ (∀ (errs : List String) (b : RpcBlock) (rest : List (RpcResult (Option RpcBlock))),
        b.timestamp < 2 ^ 32 →
        (∀ e ∈ errs, strContains e "429" = true) →
        get_block_timestamp_loop (errs.map .errr ++ .okr (some b) :: rest)
          = some (.ok b.timestamp))
    ∧ (∀ (m : String) (rest : List (RpcResult (Option RpcBlock))),
        strContains m "429" = false →
        get_block_timestamp_loop (.errr m :: rest) = some (.error m)) := by
  refine ⟨?_, ?_, ?_, ?_⟩
  · intro α errs v rest h
    induction errs with
    | nil => simp [get_logs_loop]
    | cons e es ih =>
      have he := h e (by simp)
      simp only [List.map_cons, List.cons_append, get_logs_loop, he, if_true]
      exact ih (fun x hx => h x (by simp [hx]))
  · intro α m rest h
    simp [get_logs_loop, h]
  · intro errs b rest hb h
    induction errs with
    | nil => simp [get_block_timestamp_loop]; omega
    | cons e es ih =>
      have he := h e (by simp)
      simp only [List.map_cons, List.cons_append, get_block_timestamp_loop, he, if_true]
      exact ih (fun x hx => h x (by simp [hx]))
  · intro m rest h
    simp [get_block_timestamp_loop, h]

/-- Witness for C9: three 429 responses then a success yield exactly
the successful log set; a non-429 error surfaces at once — and likewise
for the block-timestamp call. -/
theorem c9_witness :
    get_logs_loop ((["HTTP error 429", "HTTP error 429", "HTTP error 429"].map
        RpcResult.errr) ++ .okr ([] : List Nat) :: [])
      = some (.ok [])
    ∧ get_logs_loop (RpcResult.errr "connection refused" :: [.okr ([] : List Nat)])
      = some (.error "connection refused")
    ∧ get_block_timestamp_loop ((["HTTP error 429"].map RpcResult.errr)
        ++ .okr (some ⟨777⟩) :: [])
      = some (.ok 777)
    ∧ get_block_timestamp_loop (RpcResult.errr "Block parse panic" :: [.okr (some ⟨777⟩)])
      = some (.error "Block parse panic") := by
  refine ⟨?_, ?_, ?_, ?_⟩
  · exact c9_rate_limit_retry.1 (List Nat)
      ["HTTP error 429", "HTTP error 429", "HTTP error 429"] [] [] (by decide)
  · exact c9_rate_limit_retry.2.1 (List Nat) "connection refused" _ (by decide)
  · exact c9_rate_limit_retry.2.2.1 ["HTTP error 429"] ⟨777⟩ [] (by decide) (by decide)
  · exact c9_rate_limit_retry.2.2.2 "Block parse panic" _ (by decide)

/-! ### Helper lemmas for the timestamp-alignment claim -/

/-- The `zip` only consumes the first `l2.length` elements of `l1`. -/
theorem zip_take_length {α β : Type} (l1 : List α) (l2 : List β) :
    l1.zip l2 = (l1.take l2.length).zip l2 := by
  induction l1 generalizing l2 with
  | nil => simp
  | cons a as ih =>
    cases l2 with
    | nil => simp
    | cons b bs => simp [List.zip_cons_cons, ih bs]

/-- Each element of `l.filterMap f` is the image of an element of `l`
at a source position no smaller than its own position. -/
theorem filterMap_get_source {α β : Type} (f : α → Option β) :
    ∀ (l : List α) (i : Nat) (b : β), (l.filterMap f).get? i = some b →
      ∃ j, i ≤ j ∧ ∃ a, l.get? j = some a ∧ f a = some b := by
  intro l
  induction l with
  | nil => intro i b hi; simp at hi
  | cons a as ih =>
    intro i b hi
    cases hfa : f a with
    | some b0 =>
      simp only [List.filterMap_cons, hfa] at hi
      cases i with
      | zero =>
        simp at hi
        exact ⟨0, Nat.le_refl 0, a, by simp, by rw [hfa, hi]⟩
      | succ n =>
        simp only [List.get?_cons_succ] at hi
        obtain ⟨j, hij, x, hx, hfx⟩ := ih n b hi
        exact ⟨j + 1, by omega, x, by simpa using hx, hfx⟩
    | none =>
      simp only [List.filterMap_cons, hfa] at hi
      obtain ⟨j, hij, x, hx, hfx⟩ := ih i b hi
      exact ⟨j + 1, by omega, x, by simpa using hx, hfx⟩

/-- A cache hit returns a value the cache holds for that hash. -/
theorem cache_get_mem (cache : List (Nat × Nat)) (h t : Nat)
    (hg : cache_get cache h = some t) : (h, t) ∈ cache := by
  unfold cache_get at hg
  cases hf : cache.find? (fun p => p.1 == h) with
  | none => simp [hf] at hg
  | some p =>
    have hmem := List.mem_of_find?_eq_some hf
    have hp := List.find?_some hf
    simp at hp
    simp [hf] at hg
    rcases p with ⟨a, b⟩
    simp at hp hg
    subst hp; subst hg
    exact hmem

/-- With a cache that agrees with the provider, the timestamp list is
the in-order image of the logs that have a block hash. -/
theorem fetch_timestamps_go_eq (oracle : Nat → Nat) :
    ∀ (logs : List Log) (cache : List (Nat × Nat)),
      (∀ p ∈ cache, p.2 = oracle p.1) →
      (fetch_timestamps_go oracle cache logs).2
        = logs.filterMap (fun l => l.block_hash.map oracle) := by
  intro logs
  induction logs with
  | nil => intro cache _; simp [fetch_timestamps_go]
  | cons e rest ih =>
    intro cache hc
    cases hbh : e.block_hash with
    | none =>
      simpa [fetch_timestamps_go, hbh, List.filterMap_cons] using ih cache hc
    | some h =>
      cases hcg : cache_get cache h with
      | some t =>
        have ht : t = oracle h := (hc (h, t) (cache_get_mem cache h t hcg)).symm ▸ rfl
        have := ih cache hc
        rcases hgo : fetch_timestamps_go oracle cache rest with ⟨c, ts⟩
        rw [hgo] at this
        have ht' : t = oracle h := by
          have := hc (h, t) (cache_get_mem cache h t hcg)
          simpa using this
        simp [fetch_timestamps_go, hbh, hcg, hgo, List.filterMap_cons, this, ht']
      | none =>
        have hc' : ∀ p ∈ cache ++ [(h, oracle h)], p.2 = oracle p.1 := by
          intro p hp
          rcases List.mem_append.mp hp with hp | hp
          · exact hc p hp
          · simp at hp; subst hp; rfl
        have := ih (cache ++ [(h, oracle h)]) hc'
        rcases hgo : fetch_timestamps_go oracle (cache ++ [(h, oracle h)]) rest with ⟨c, ts⟩
        rw [hgo] at this
        simp [fetch_timestamps_go, hbh, hcg, hgo, List.filterMap_cons, this]

/-- When every log has a block hash, there is one timestamp per log. -/
theorem filterMap_hash_length (oracle : Nat → Nat) :
    ∀ (logs : List Log), (∀ l ∈ logs, l.block_hash.isSome) →
      (logs.filterMap (fun l => l.block_hash.map oracle)).length = logs.length := by
  intro logs
  induction logs with
  | nil => intro _; simp
  | cons e rest ih =>
    intro h
    have he := h e (by simp)
    cases hbh : e.block_hash with
    | none => simp [hbh] at he
    | some hh =>
      have h' := ih (fun l hl => h l (by simp [hl]))
      simp [List.filterMap_cons, hbh, h']

/-- Claim C10 (corrected).  `fetch_event_timestamps` returns the input
logs unchanged with one timestamp per log *that has a block hash*, in
input order; with every log mined the lists align index by index.  But
when a log lacks a block hash the timestamp list is shorter, and the
`zip` in the `persist_many_*` functions then pairs each log at or past
the gap with the timestamp of a *later* log (the claim says an
*earlier* log's — the shift goes the other way) and silently drops the
trailing logs entirely. -/
theorem c10_timestamp_alignment (oracle : Nat → Nat) (st : IndexerState) (logs : List Log)
    (hc : ∀ p ∈ st.cache, p.2 = oracle p.1) :
    (fetch_event_timestamps oracle st logs).2.1 = logs
    ∧ (fetch_event_timestamps oracle st logs).2.2
        = logs.filterMap (fun l => l.block_hash.map oracle)
    ∧ ((∀ l ∈ logs, l.block_hash.isSome) →
        (fetch_event_timestamps oracle st logs).2.2.length = logs.length)
    ∧ (∀ i t, (fetch_event_timestamps oracle st logs).2.2.get? i = some t →
        ∃ j, i ≤ j ∧ ∃ l, logs.get? j = some l ∧ l.block_hash.map oracle = some t)
    ∧ (∀ (store : Store) (ci uid : Nat),
        persist_many_register_logs store logs ci
            (fetch_event_timestamps oracle st logs).2.2 uid
          = persist_many_register_logs store
              (logs.take (fetch_event_timestamps oracle st logs).2.2.length) ci
              (fetch_event_timestamps oracle st logs).2.2 uid) := by
  have hts : (fetch_event_timestamps oracle st logs).2.2
      = logs.filterMap (fun l => l.block_hash.map oracle) := by
    unfold fetch_event_timestamps
    rcases hgo : fetch_timestamps_go oracle st.cache logs with ⟨c, ts⟩
    have := fetch_timestamps_go_eq oracle logs st.cache hc
    rw [hgo] at this
    simpa using this
  refine ⟨rfl, hts, ?_, ?_, ?_⟩
  · intro hall
    rw [hts]
    exact filterMap_hash_length oracle logs hall
  · intro i t hi
    rw [hts] at hi
    obtain ⟨j, hij, l, hl, hfl⟩ := filterMap_get_source (fun l => l.block_hash.map oracle) logs i t hi
    exact ⟨j, hij, l, hl, hfl⟩
  · intro store ci uid
    unfold persist_many_register_logs
    rw [zip_take_length logs (fetch_event_timestamps oracle st logs).2.2,
      zip_take_length (logs.take (fetch_event_timestamps oracle st logs).2.2.length)
        (fetch_event_timestamps oracle st logs).2.2,
      List.take_take]

/-- Counterexample for C10 as stated: with logs `[l0 (mined, ts 10),
l1 (no block hash), l2 (mined, ts 30)]` the timestamp list is
`[10, 30]`; the zip pairs the hash-less `l1` with 30 — the timestamp of
the *later* log `l2`, not of any earlier log (the earlier logs' only
timestamp is 10) — and drops `l2` from persistence entirely. -/
theorem c10_counterexample :
    c10_l1.block_hash = none
    ∧ (fetch_event_timestamps c10_oracle initial_state [c10_l0, c10_l1, c10_l2]).2.2
        = [10, 30]
    ∧ ([c10_l0, c10_l1, c10_l2].zip
        (fetch_event_timestamps c10_oracle initial_state [c10_l0, c10_l1, c10_l2]).2.2)
      = [(c10_l0, 10), (c10_l1, 30)]
    ∧ c10_l2.block_hash.map c10_oracle = some 30
    ∧ 30 ∉ [c10_l0].filterMap (fun l => l.block_hash.map c10_oracle) := by
  decide

/-! ### Helper lemmas for evaluating single-window `sync` runs -/

/-- A `sync(a, a)` run whose (single) window succeeds: the result is
the window's state with the timestamp cache cleared. -/
theorem sync_single_window_ok (chain : ChainLogs) (oracle : Nat → Nat) (ci : Nat)
    (st : IndexerState) (a : Nat)
    (h : (process_window chain oracle ci st a (a + BLOCK_INTERVAL)).2 = none) :
    sync chain oracle ci st a a
      = (⟨(process_window chain oracle ci st a (a + BLOCK_INTERVAL)).1.store, [],
          (process_window chain oracle ci st a (a + BLOCK_INTERVAL)).1.next_id⟩, none) := by
  rw [sync, sync_windows]
  rw [dif_pos (Nat.le_refl a)]
  have hw : process_window chain oracle ci st a (a + BLOCK_INTERVAL)
      = ((process_window chain oracle ci st a (a + BLOCK_INTERVAL)).1, none) := by
    rw [← h]
  rw [hw]
  show sync_windows chain oracle ci
      ⟨(process_window chain oracle ci st a (a + BLOCK_INTERVAL)).1.store, [],
        (process_window chain oracle ci st a (a + BLOCK_INTERVAL)).1.next_id⟩
      (a + BLOCK_INTERVAL + 1) a = _
  rw [sync_windows]
  rw [dif_neg (by simp [BLOCK_INTERVAL]; omega)]

/-- A `sync(a, a)` run whose (single) window fails: the result is the
window's outcome, committed prefix included. -/
theorem sync_single_window_fail (chain : ChainLogs) (oracle : Nat → Nat) (ci : Nat)
    (st : IndexerState) (a : Nat) (f : Failure)
    (h : (process_window chain oracle ci st a (a + BLOCK_INTERVAL)).2 = some f) :
    sync chain oracle ci st a a = process_window chain oracle ci st a (a + BLOCK_INTERVAL) := by
  rw [sync, sync_windows]
  rw [dif_pos (Nat.le_refl a)]
  have hw : process_window chain oracle ci st a (a + BLOCK_INTERVAL)
      = ((process_window chain oracle ci st a (a + BLOCK_INTERVAL)).1, some f) := by
    rw [← h]
  rw [hw]

/-- A failed `sync_*_logs` step leaves the store untouched: the
transaction of its `persist_many_*` call never committed. -/
theorem sync_logs_fail_store (oracle : Nat → Nat) (chain_id : Nat) (k : EventKind)
    (st st' : IndexerState) (logs : List Log) (f : Failure)
    (h : sync_logs oracle chain_id k st logs = (st', some f)) :
    st'.store = st.store := by
  unfold sync_logs fetch_event_timestamps at h
  rcases hgo : fetch_timestamps_go oracle st.cache logs with ⟨c, ts⟩
  rw [hgo] at h
  simp only at h
  cases hp : persist_many k st.store logs chain_id ts st.next_id with
  | ok p => rw [hp] at h; simp at h
  | error g =>
    rw [hp] at h
    simp at h
    rw [← h.1]

/-- Claim C2 (corrected).  What does hold of the atomicity of
persistence: each `persist_many_*` call — one *event type* of one
window — is one transaction; when a `sync_*_logs` step fails, none of
that step's rows are visible (the store is exactly the one from before
the step).  The counterexample below shows the claimed *window*-level
atomicity is false: event types of one window commit in separate
transactions, so the earlier types' rows survive a later type's
failure, and `get_start_block` moves past them. -/
theorem c2_per_event_type_rollback (oracle : Nat → Nat) (chain_id : Nat) (k : EventKind)
    (st st' : IndexerState) (logs : List Log) (f : Failure)
    (h : sync_logs oracle chain_id k st logs = (st', some f)) :
    st'.store = st.store :=
  sync_logs_fail_store oracle chain_id k st st' logs f h

/-- Counterexample for C2 as stated: a window holding a well-formed
Register log and a malformed Rent log.  The register step commits its
own transaction first; the rent step then panics and aborts the
window.  Afterwards the window's chain-event row and fid row *are*
visible (1 row each), and `get_start_block` has moved from 111816370
to 111816371 — it no longer points before the window. -/
theorem c2_counterexample :
    (sync c2_chain c2_oracle 10 initial_state 111816370 111816370).2 = some .panic
    ∧ (sync c2_chain c2_oracle 10 initial_state 111816370 111816370).1.store.chain_events.length = 1
    ∧ (sync c2_chain c2_oracle 10 initial_state 111816370 111816370).1.store.fids.length = 1
    ∧ get_start_block (sync c2_chain c2_oracle 10 initial_state 111816370 111816370).1.store
        = 111816371
    ∧ get_start_block initial_state.store = 111816370 := by
  have h2 : (process_window c2_chain c2_oracle 10 initial_state 111816370
      (111816370 + BLOCK_INTERVAL)).2 = some .panic := by decide
  have hrun := sync_single_window_fail c2_chain c2_oracle 10 initial_state 111816370 .panic h2
  rw [hrun]
  refine ⟨h2, ?_, ?_, ?_, ?_⟩ <;> decide

/-- Witness for C2's theorem: the failing rent step of the
counterexample window, taken on its own, leaves the store exactly as it
found it. -/
theorem c2_witness :
    (sync_logs c2_oracle 10 .rent initial_state [c2_bad_rent_log]).2 = some .panic
    ∧ (sync_logs c2_oracle 10 .rent initial_state [c2_bad_rent_log]).1.store
        = initial_state.store := by
  have h2 : (sync_logs c2_oracle 10 .rent initial_state [c2_bad_rent_log]).2 = some .panic := by
    decide
  have h : sync_logs c2_oracle 10 .rent initial_state [c2_bad_rent_log]
      = ((sync_logs c2_oracle 10 .rent initial_state [c2_bad_rent_log]).1, some .panic) := by
    rw [← h2]
  exact ⟨h2, c2_per_event_type_rollback c2_oracle 10 .rent initial_state _ [c2_bad_rent_log]
    .panic h⟩

/-- Claim C6 (code bug).  Removed-log filtering: the claim (and the
spec's invariant) say a log marked `removed: true` is never persisted,
the filtering being the Orchestrator's job.  No component ever reads
the `removed` flag: a full `sync` run over a chain whose only log is a
removed Register log persists its chain-event row and fid row exactly
as if the log were live. -/
theorem c6_removed_log_persisted :
    c6_removed_log.removed = some true
    ∧ (sync c6_chain c6_oracle 10 initial_state 111816370 111816370).2 = none
    ∧ (sync c6_chain c6_oracle 10 initial_state 111816370 111816370).1.store.chain_events.length
        = 1
    ∧ (sync c6_chain c6_oracle 10 initial_state 111816370 111816370).1.store.fids.length = 1 := by
  have h2 : (process_window c6_chain c6_oracle 10 initial_state 111816370
      (111816370 + BLOCK_INTERVAL)).2 = none := by decide
  have hrun := sync_single_window_ok c6_chain c6_oracle 10 initial_state 111816370 h2
  rw [hrun]
  refine ⟨?_, ?_, ?_, ?_⟩ <;> decide

/-! ### Where chain-event rows come from

Each `process_*_log` stamps the log's own block number into the row it
builds; persistence adds exactly those rows.  These lemmas trace every
row of a store after a sync back to either the pre-existing store or a
log of the synced range. -/

theorem process_register_log_block (l : Log) (ci t u : Nat) (fr : FidRow)
    (er : ChainEventRow) (u' : Nat)
    (h : process_register_log l ci t u = .ok ((fr, er), u')) :
    l.block_number = some er.block_number := by
  unfold process_register_log at h
  repeat' split at h
  all_goals try exact Except.noConfusion h
  simp only [Except.ok.injEq, Prod.mk.injEq] at h
  obtain ⟨⟨hfr, her⟩, hu⟩ := h
  subst her
  simp_all [ChainEventRow.new]

theorem process_transfer_log_block (l : Log) (ci t u : Nat) (fr : FidTransfer)
    (er : ChainEventRow) (u' : Nat)
    (h : process_transfer_log l ci t u = .ok ((fr, er), u')) :
    l.block_number = some er.block_number := by
  unfold process_transfer_log at h
  repeat' split at h
  all_goals try exact Except.noConfusion h
  simp only [Except.ok.injEq, Prod.mk.injEq] at h
  obtain ⟨⟨hfr, her⟩, hu⟩ := h
  subst her
  simp_all [ChainEventRow.new]

theorem process_recovery_log_block (l : Log) (ci t u : Nat) (fr : FidTransfer)
    (er : ChainEventRow) (u' : Nat)
    (h : process_recovery_log l ci t u = .ok ((fr, er), u')) :
    l.block_number = some er.block_number := by
  unfold process_recovery_log at h
  repeat' split at h
  all_goals try exact Except.noConfusion h
  simp only [Except.ok.injEq, Prod.mk.injEq] at h
  obtain ⟨⟨hfr, her⟩, hu⟩ := h
  subst her
  simp_all [ChainEventRow.new]

theorem process_change_recovery_address_log_block (l : Log) (ci t u : Nat)
    (fr : FidRecoveryUpdate) (er : ChainEventRow) (u' : Nat)
    (h : process_change_recovery_address_log l ci t u = .ok ((fr, er), u')) :
    l.block_number = some er.block_number := by
  unfold process_change_recovery_address_log at h
  repeat' split at h
  all_goals try exact Except.noConfusion h
  simp only [Except.ok.injEq, Prod.mk.injEq] at h
  obtain ⟨⟨hfr, her⟩, hu⟩ := h
  subst her
  simp_all [ChainEventRow.new]

theorem process_add_log_block (l : Log) (ci t u : Nat) (sr : SignerRow)
    (er : ChainEventRow) (u' : Nat)
    (h : process_add_log l ci t u = .ok ((sr, er), u')) :
    l.block_number = some er.block_number := by
  unfold process_add_log at h
  repeat' split at h
  all_goals try exact Except.noConfusion h
  simp only [Except.ok.injEq, Prod.mk.injEq] at h
  obtain ⟨⟨hfr, her⟩, hu⟩ := h
  subst her
  simp_all [ChainEventRow.new]

theorem process_remove_log_block (s : Store) (l : Log) (ci t u : Nat) (kb : Bytes)
    (er : ChainEventRow) (u' : Nat)
    (h : process_remove_log s l ci t u = .ok ((kb, er), u')) :
    l.block_number = some er.block_number := by
  unfold process_remove_log at h
  repeat' split at h
  all_goals try exact Except.noConfusion h
  simp only [Except.ok.injEq, Prod.mk.injEq] at h
  obtain ⟨⟨hfr, her⟩, hu⟩ := h
  subst her
  simp_all [ChainEventRow.new]

theorem process_admin_reset_log_block (s : Store) (l : Log) (ci t u : Nat) (kb : Bytes)
    (er : ChainEventRow) (u' : Nat)
    (h : process_admin_reset_log s l ci t u = .ok ((kb, er), u')) :
    l.block_number = some er.block_number := by
  unfold process_admin_reset_log at h
  repeat' split at h
  all_goals try exact Except.noConfusion h
  simp only [Except.ok.injEq, Prod.mk.injEq] at h
  obtain ⟨⟨hfr, her⟩, hu⟩ := h
  subst her
  simp_all [ChainEventRow.new]

theorem process_migrated_log_block (l : Log) (ci t u : Nat)
    (er : ChainEventRow) (u' : Nat)
    (h : process_migrated_log l ci t u = .ok (er, u')) :
    l.block_number = some er.block_number := by
  unfold process_migrated_log at h
  repeat' split at h
  all_goals try exact Except.noConfusion h
  simp only [Except.ok.injEq, Prod.mk.injEq] at h
  obtain ⟨her, hu⟩ := h
  subst her
  simp_all [ChainEventRow.new]

theorem process_rent_log_block (l : Log) (ci t u : Nat) (ar : StorageAllocationRow)
    (er : ChainEventRow) (u' : Nat)
    (h : process_rent_log l ci t u = .ok ((ar, er), u')) :
    l.block_number = some er.block_number := by
  unfold process_rent_log at h
  repeat' split at h
  all_goals try exact Except.noConfusion h
  simp only [Except.ok.injEq, Prod.mk.injEq] at h
  obtain ⟨⟨hfr, her⟩, hu⟩ := h
  subst her
  simp_all [ChainEventRow.new]

/-- Everything `process_pairs` produces comes from one of its input
pairs, for any per-element postcondition of the processing function. -/
theorem process_pairs_mem {β : Type} (f : Log → Nat → Nat → EResult (β × Nat))
    (P : Log → β → Prop)
    (hf : ∀ l t u b u', f l t u = .ok (b, u') → P l b) :
    ∀ (pairs : List (Log × Nat)) (u : Nat) (rows : List β) (u' : Nat),
      process_pairs f pairs u = .ok (rows, u') → ∀ b ∈ rows, ∃ p ∈ pairs, P p.1 b := by
  intro pairs
  induction pairs with
  | nil =>
    intro u rows u' h b hb
    simp [process_pairs] at h
    obtain ⟨h1, _⟩ := h
    subst h1
    simp at hb
  | cons p rest ih =>
    rcases p with ⟨l, t⟩
    intro u rows u' h b hb
    unfold process_pairs at h
    cases h1 : f l t u with
    | error g => simp only [h1] at h; exact Except.noConfusion h
    | ok bu =>
      rcases bu with ⟨b0, u0⟩
      simp only [h1] at h
      cases h2 : process_pairs f rest u0 with
      | error g => simp only [h2] at h; exact Except.noConfusion h
      | ok bsu =>
        rcases bsu with ⟨bs, u1⟩
        simp only [h2, Except.ok.injEq, Prod.mk.injEq] at h
        obtain ⟨hrows, hu⟩ := h
        subst hrows
        rcases List.mem_cons.mp hb with hb | hb
        · subst hb
          exact ⟨(l, t), by simp, hf l t u b u0 h1⟩
        · obtain ⟨q, hq, hP⟩ := ih u0 bs u1 h2 b hb
          exact ⟨q, by simp [hq], hP⟩

/-- A successful plain chain-event bulk insert appends exactly its
rows. -/
theorem execute_chain_event_inserts_ok :
    ∀ (rows : List ChainEventRow) (s s' : Store),
      execute_chain_event_inserts s rows = .ok s' →
      s' = { s with chain_events := s.chain_events ++ rows } := by
  intro rows
  induction rows with
  | nil => intro s s' h; simp [execute_chain_event_inserts] at h; simp [← h]
  | cons r rest ih =>
    intro s s' h
    unfold execute_chain_event_inserts insert_chain_event at h
    by_cases hc : (s.chain_events.any fun e => e.transaction_hash == r.transaction_hash && e.log_index == r.log_index) = true
    · rw [if_pos hc] at h
      exact Except.noConfusion h
    · rw [if_neg hc] at h
      have h2 : execute_chain_event_inserts { s with chain_events := s.chain_events ++ [r] } rest = .ok s' := h
      have := ih _ _ h2
      simp [this]

/-- A successful plain fid bulk insert appends exactly its rows. -/
theorem execute_fid_inserts_ok :
    ∀ (rows : List FidRow) (s s' : Store),
      execute_fid_inserts s rows = .ok s' →
      s' = { s with fids := s.fids ++ rows } := by
  intro rows
  induction rows with
  | nil => intro s s' h; simp [execute_fid_inserts] at h; simp [← h]
  | cons r rest ih =>
    intro s s' h
    unfold execute_fid_inserts insert_fid at h
    by_cases hc : (s.fids.any fun e => e.fid == r.fid) = true
    · rw [if_pos hc] at h
      exact Except.noConfusion h
    · rw [if_neg hc] at h
      have h2 : execute_fid_inserts { s with fids := s.fids ++ [r] } rest = .ok s' := h
      have := ih _ _ h2
      simp [this]

/-- A successful plain signer bulk insert appends exactly its rows. -/
theorem execute_signer_inserts_ok :
    ∀ (rows : List SignerRow) (s s' : Store),
      execute_signer_inserts s rows = .ok s' →
      s' = { s with signers := s.signers ++ rows } := by
  intro rows
  induction rows with
  | nil => intro s s' h; simp [execute_signer_inserts] at h; simp [← h]
  | cons r rest ih =>
    intro s s' h
    unfold execute_signer_inserts insert_signer at h
    by_cases hc : (s.signers.any fun e => e.fid == r.fid && e.key == r.key) = true
    · rw [if_pos hc] at h
      exact Except.noConfusion h
    · rw [if_neg hc] at h
      have h2 : execute_signer_inserts { s with signers := s.signers ++ [r] } rest = .ok s' := h
      have := ih _ _ h2
      simp [this]

/-- The signer remove-update statements only ever succeed with nothing
to update (§ `execute_signer_remove_update_queries`). -/
theorem execute_signer_remove_update_queries_ok (s s' : Store) (updates : List (Bytes × Nat))
    (h : execute_signer_remove_update_queries s updates = .ok s') : s' = s := by
  unfold execute_signer_remove_update_queries at h
  split at h
  · simpa using Except.ok.inj h |>.symm
  · exact Except.noConfusion h

/-- The custody-address update touches only the `fids` table. -/
theorem execute_fid_transfer_updates_chain (s : Store) (l : List FidTransfer) :
    (execute_fid_transfer_updates s l).chain_events = s.chain_events := rfl

/-- The recovery-address update touches only the `fids` table. -/
theorem execute_fid_recovery_updates_chain (s : Store) (l : List FidRecoveryUpdate) :
    (execute_fid_recovery_updates s l).chain_events = s.chain_events := rfl

/-- Any chain-event row present after a successful `persist_many` was
either already in the store or carries the block number of one of the
persisted logs. -/
theorem persist_many_chain_events (k : EventKind) (store : Store) (logs : List Log)
    (ci : Nat) (ts : List Nat) (uid : Nat) (s' : Store) (u' : Nat)
    (h : persist_many k store logs ci ts uid = .ok (s', u')) :
    ∀ r ∈ s'.chain_events,
      r ∈ store.chain_events ∨ ∃ l ∈ logs, l.block_number = some r.block_number := by
  intro r hr
  cases k
  case register =>
    simp only [persist_many] at h
    unfold persist_many_register_logs at h
    cases hpp : process_pairs (fun l t u => process_register_log l ci t u) (logs.zip ts) uid with
    | error g => simp only [hpp] at h; exact Except.noConfusion h
    | ok rowsu =>
      rcases rowsu with ⟨rows, u0⟩
      simp only [hpp] at h
      cases hce : execute_chain_event_inserts store (rows.map (·.2)) with
      | error g => simp only [hce] at h; exact Except.noConfusion h
      | ok s1 =>
        simp only [hce] at h
        have hs1 := execute_chain_event_inserts_ok _ _ _ hce
        cases hfi : execute_fid_inserts s1 (rows.map (·.1)) with
        | error g => simp only [hfi] at h; exact Except.noConfusion h
        | ok s2 =>
          simp only [hfi, Except.ok.injEq, Prod.mk.injEq] at h
          have hs2 := execute_fid_inserts_ok _ _ _ hfi
          have hconc : s'.chain_events = store.chain_events ++ rows.map (·.2) := by
            rw [← h.1, hs2, hs1]
          rw [hconc] at hr
          rcases List.mem_append.mp hr with hr | hr
          · exact Or.inl hr
          · obtain ⟨⟨a, b⟩, hmem, hrb⟩ := List.mem_map.mp hr
            obtain ⟨p, hp, hP⟩ := process_pairs_mem _
              (fun l q => l.block_number = some q.2.block_number)
              (fun l t u q u'' hh => process_register_log_block l ci t u q.1 q.2 u'' hh)
              (logs.zip ts) uid rows u0 hpp (a, b) hmem
            exact Or.inr ⟨p.1, (List.of_mem_zip hp).1, by rw [hP, hrb]⟩
  case transfer =>
    simp only [persist_many] at h
    unfold persist_many_transfer_logs at h
    cases hpp : process_pairs (fun l t u => process_transfer_log l ci t u) (logs.zip ts) uid with
    | error g => simp only [hpp] at h; exact Except.noConfusion h
    | ok rowsu =>
      rcases rowsu with ⟨rows, u0⟩
      simp only [hpp] at h
      cases hce : execute_chain_event_inserts store (rows.map (·.2)) with
      | error g => simp only [hce] at h; exact Except.noConfusion h
      | ok s1 =>
        simp only [hce] at h
        have hs1 := execute_chain_event_inserts_ok _ _ _ hce
        simp only [Except.ok.injEq, Prod.mk.injEq] at h
        have hconc : s'.chain_events = store.chain_events ++ rows.map (·.2) := by
          rw [← h.1, execute_fid_transfer_updates_chain, hs1]
        rw [hconc] at hr
        rcases List.mem_append.mp hr with hr | hr
        · exact Or.inl hr
        · obtain ⟨⟨a, b⟩, hmem, hrb⟩ := List.mem_map.mp hr
          obtain ⟨p, hp, hP⟩ := process_pairs_mem _
            (fun l q => l.block_number = some q.2.block_number)
            (fun l t u q u'' hh => process_transfer_log_block l ci t u q.1 q.2 u'' hh)
            (logs.zip ts) uid rows u0 hpp (a, b) hmem
          exact Or.inr ⟨p.1, (List.of_mem_zip hp).1, by rw [hP, hrb]⟩
  case recovery =>
    simp only [persist_many] at h
    unfold persist_many_recovery_logs at h
    cases hpp : process_pairs (fun l t u => process_recovery_log l ci t u) (logs.zip ts) uid with
    | error g => simp only [hpp] at h; exact Except.noConfusion h
    | ok rowsu =>
      rcases rowsu with ⟨rows, u0⟩
      simp only [hpp] at h
      cases hce : execute_chain_event_inserts store (rows.map (·.2)) with
      | error g => simp only [hce] at h; exact Except.noConfusion h
      | ok s1 =>
        simp only [hce] at h
        have hs1 := execute_chain_event_inserts_ok _ _ _ hce
        simp only [Except.ok.injEq, Prod.mk.injEq] at h
        have hconc : s'.chain_events = store.chain_events ++ rows.map (·.2) := by
          rw [← h.1, execute_fid_transfer_updates_chain, hs1]
        rw [hconc] at hr
        rcases List.mem_append.mp hr with hr | hr
        · exact Or.inl hr
        · obtain ⟨⟨a, b⟩, hmem, hrb⟩ := List.mem_map.mp hr
          obtain ⟨p, hp, hP⟩ := process_pairs_mem _
            (fun l q => l.block_number = some q.2.block_number)
            (fun l t u q u'' hh => process_recovery_log_block l ci t u q.1 q.2 u'' hh)
            (logs.zip ts) uid rows u0 hpp (a, b) hmem
          exact Or.inr ⟨p.1, (List.of_mem_zip hp).1, by rw [hP, hrb]⟩
  case changeRecoveryAddress =>
    simp only [persist_many] at h
    unfold persist_many_change_recovery_address_logs at h
    cases hpp : process_pairs (fun l t u => process_change_recovery_address_log l ci t u) (logs.zip ts) uid with
    | error g => simp only [hpp] at h; exact Except.noConfusion h
    | ok rowsu =>
      rcases rowsu with ⟨rows, u0⟩
      simp only [hpp] at h
      cases hce : execute_chain_event_inserts store (rows.map (·.2)) with
      | error g => simp only [hce] at h; exact Except.noConfusion h
      | ok s1 =>
        simp only [hce] at h
        have hs1 := execute_chain_event_inserts_ok _ _ _ hce
        simp only [Except.ok.injEq, Prod.mk.injEq] at h
        have hconc : s'.chain_events = store.chain_events ++ rows.map (·.2) := by
          rw [← h.1, execute_fid_recovery_updates_chain, hs1]
        rw [hconc] at hr
        rcases List.mem_append.mp hr with hr | hr
        · exact Or.inl hr
        · obtain ⟨⟨a, b⟩, hmem, hrb⟩ := List.mem_map.mp hr
          obtain ⟨p, hp, hP⟩ := process_pairs_mem _
            (fun l q => l.block_number = some q.2.block_number)
            (fun l t u q u'' hh => process_change_recovery_address_log_block l ci t u q.1 q.2 u'' hh)
            (logs.zip ts) uid rows u0 hpp (a, b) hmem
          exact Or.inr ⟨p.1, (List.of_mem_zip hp).1, by rw [hP, hrb]⟩
  case add =>
    simp only [persist_many] at h
    unfold persist_many_add_logs at h
    cases hpp : process_pairs (fun l t u => process_add_log l ci t u) (logs.zip ts) uid with
    | error g => simp only [hpp] at h; exact Except.noConfusion h
    | ok rowsu =>
      rcases rowsu with ⟨rows, u0⟩
      simp only [hpp] at h
      cases hce : execute_chain_event_inserts store (rows.map (·.2)) with
      | error g => simp only [hce] at h; exact Except.noConfusion h
      | ok s1 =>
        simp only [hce] at h
        have hs1 := execute_chain_event_inserts_ok _ _ _ hce
        cases hfi : execute_signer_inserts s1 (rows.map (·.1)) with
        | error g => simp only [hfi] at h; exact Except.noConfusion h
        | ok s2 =>
          simp only [hfi, Except.ok.injEq, Prod.mk.injEq] at h
          have hs2 := execute_signer_inserts_ok _ _ _ hfi
          have hconc : s'.chain_events = store.chain_events ++ rows.map (·.2) := by
            rw [← h.1, hs2, hs1]
          rw [hconc] at hr
          rcases List.mem_append.mp hr with hr | hr
          · exact Or.inl hr
          · obtain ⟨⟨a, b⟩, hmem, hrb⟩ := List.mem_map.mp hr
            obtain ⟨p, hp, hP⟩ := process_pairs_mem _
              (fun l q => l.block_number = some q.2.block_number)
              (fun l t u q u'' hh => process_add_log_block l ci t u q.1 q.2 u'' hh)
              (logs.zip ts) uid rows u0 hpp (a, b) hmem
            exact Or.inr ⟨p.1, (List.of_mem_zip hp).1, by rw [hP, hrb]⟩
  case remove =>
    simp only [persist_many] at h
    unfold persist_many_remove_logs at h
    cases hpp : process_pairs (fun l t u => process_remove_log store l ci t u) (logs.zip ts) uid with
    | error g => simp only [hpp] at h; exact Except.noConfusion h
    | ok rowsu =>
      rcases rowsu with ⟨rows, u0⟩
      simp only [hpp] at h
      cases hce : execute_chain_event_inserts store (rows.map (·.2)) with
      | error g => simp only [hce] at h; exact Except.noConfusion h
      | ok s1 =>
        simp only [hce] at h
        have hs1 := execute_chain_event_inserts_ok _ _ _ hce
        cases hru : execute_signer_remove_update_queries s1 (rows.map (fun p => (p.1, p.2.id))) with
        | error g => simp only [hru] at h; exact Except.noConfusion h
        | ok s2 =>
          simp only [hru, Except.ok.injEq, Prod.mk.injEq] at h
          have hs2 := execute_signer_remove_update_queries_ok _ _ _ hru
          have hconc : s'.chain_events = store.chain_events ++ rows.map (·.2) := by
            rw [← h.1, hs2, hs1]
          rw [hconc] at hr
          rcases List.mem_append.mp hr with hr | hr
          · exact Or.inl hr
          · obtain ⟨⟨a, b⟩, hmem, hrb⟩ := List.mem_map.mp hr
            obtain ⟨p, hp, hP⟩ := process_pairs_mem _
              (fun l q => l.block_number = some q.2.block_number)
              (fun l t u q u'' hh => process_remove_log_block store l ci t u q.1 q.2 u'' hh)
              (logs.zip ts) uid rows u0 hpp (a, b) hmem
            exact Or.inr ⟨p.1, (List.of_mem_zip hp).1, by rw [hP, hrb]⟩
  case adminReset =>
    simp only [persist_many] at h
    unfold persist_many_admin_reset_logs at h
    cases hpp : process_pairs (fun l t u => process_admin_reset_log store l ci t u) (logs.zip ts) uid with
    | error g => simp only [hpp] at h; exact Except.noConfusion h
    | ok rowsu =>
      rcases rowsu with ⟨rows, u0⟩
      simp only [hpp] at h
      cases hce : execute_chain_event_inserts store (rows.map (·.2)) with
      | error g => simp only [hce] at h; exact Except.noConfusion h
      | ok s1 =>
        simp only [hce] at h
        have hs1 := execute_chain_event_inserts_ok _ _ _ hce
        simp only [Except.ok.injEq, Prod.mk.injEq] at h
        have hconc : s'.chain_events = store.chain_events ++ rows.map (·.2) := by
          rw [← h.1, hs1]
        rw [hconc] at hr
        rcases List.mem_append.mp hr with hr | hr
        · exact Or.inl hr
        · obtain ⟨⟨a, b⟩, hmem, hrb⟩ := List.mem_map.mp hr
          obtain ⟨p, hp, hP⟩ := process_pairs_mem _
            (fun l q => l.block_number = some q.2.block_number)
            (fun l t u q u'' hh => process_admin_reset_log_block store l ci t u q.1 q.2 u'' hh)
            (logs.zip ts) uid rows u0 hpp (a, b) hmem
          exact Or.inr ⟨p.1, (List.of_mem_zip hp).1, by rw [hP, hrb]⟩
  case migrated =>
    simp only [persist_many] at h
    unfold persist_many_migrated_logs at h
    cases hpp : process_pairs (fun l t u => process_migrated_log l ci t u) (logs.zip ts) uid with
    | error g => simp only [hpp] at h; exact Except.noConfusion h
    | ok rowsu =>
      rcases rowsu with ⟨rows, u0⟩
      simp only [hpp] at h
      cases hce : execute_chain_event_inserts store rows with
      | error g => simp only [hce] at h; exact Except.noConfusion h
      | ok s1 =>
        simp only [hce] at h
        have hs1 := execute_chain_event_inserts_ok _ _ _ hce
        simp only [Except.ok.injEq, Prod.mk.injEq] at h
        have hconc : s'.chain_events = store.chain_events ++ rows := by
          rw [← h.1, hs1]
        rw [hconc] at hr
        rcases List.mem_append.mp hr with hr | hr
        · exact Or.inl hr
        · obtain ⟨p, hp, hP⟩ := process_pairs_mem _
            (fun l q => l.block_number = some q.block_number)
            (fun l t u q u'' hh => process_migrated_log_block l ci t u q u'' hh)
            (logs.zip ts) uid rows u0 hpp r hr
          exact Or.inr ⟨p.1, (List.of_mem_zip hp).1, hP⟩
  case rent =>
    simp only [persist_many] at h
    unfold persist_many_rent_logs at h
    cases hpp : process_pairs (fun l t u => process_rent_log l ci t u) (logs.zip ts) uid with
    | error g => simp only [hpp] at h; exact Except.noConfusion h
    | ok rowsu =>
      rcases rowsu with ⟨rows, u0⟩
      simp only [hpp] at h
      cases hce : execute_chain_event_inserts store (rows.map (·.2)) with
      | error g => simp only [hce] at h; exact Except.noConfusion h
      | ok s1 =>
        simp only [hce] at h
        have hs1 := execute_chain_event_inserts_ok _ _ _ hce
        simp only [execute_storage_allocation_inserts, Except.ok.injEq, Prod.mk.injEq] at h
        have hconc : s'.chain_events = store.chain_events ++ rows.map (·.2) := by
          rw [← h.1, hs1]
        rw [hconc] at hr
        rcases List.mem_append.mp hr with hr | hr
        · exact Or.inl hr
        · obtain ⟨⟨a, b⟩, hmem, hrb⟩ := List.mem_map.mp hr
          obtain ⟨p, hp, hP⟩ := process_pairs_mem _
            (fun l q => l.block_number = some q.2.block_number)
            (fun l t u q u'' hh => process_rent_log_block l ci t u q.1 q.2 u'' hh)
            (logs.zip ts) uid rows u0 hpp (a, b) hmem
          exact Or.inr ⟨p.1, (List.of_mem_zip hp).1, by rw [hP, hrb]⟩
  case setMaxUnits =>
    simp only [persist_many] at h
    unfold persist_many_set_max_units_logs at h
    cases hpp : process_pairs (fun l _t u => (process_set_max_units_log l).map (fun _ => ((), u)))
        (logs.zip ts) uid with
    | error g => simp only [hpp] at h; exact Except.noConfusion h
    | ok rowsu =>
      rcases rowsu with ⟨rows, u0⟩
      simp only [hpp, Except.ok.injEq, Prod.mk.injEq] at h
      rw [← h.1] at hr
      exact Or.inl hr
  case deprecationTimestamp =>
    simp only [persist_many] at h
    unfold persist_many_deprecation_timestamp_logs at h
    cases hpp : logs.foldlM (fun (_ : Unit) l => process_deprecation_timestamp_log l) () with
    | error g => simp only [hpp] at h; exact Except.noConfusion h
    | ok x =>
      simp only [hpp, Except.ok.injEq, Prod.mk.injEq] at h
      rw [← h.1] at hr
      exact Or.inl hr

/-- A `sync_*_logs` step only adds rows stamped with block numbers of
its own logs. -/
theorem sync_logs_chain_events (oracle : Nat → Nat) (ci : Nat) (k : EventKind)
    (st st' : IndexerState) (logs : List Log) (res : Option Failure)
    (h : sync_logs oracle ci k st logs = (st', res)) :
    ∀ r ∈ st'.store.chain_events,
      r ∈ st.store.chain_events ∨ ∃ l ∈ logs, l.block_number = some r.block_number := by
  unfold sync_logs fetch_event_timestamps at h
  rcases hgo : fetch_timestamps_go oracle st.cache logs with ⟨c, ts⟩
  rw [hgo] at h
  simp only at h
  cases hp : persist_many k st.store logs ci ts st.next_id with
  | ok p =>
    rcases p with ⟨s2, u2⟩
    rw [hp] at h
    simp at h
    intro r hr
    rw [← h.1] at hr
    exact persist_many_chain_events k st.store logs ci ts st.next_id s2 u2 hp r hr
  | error g =>
    rw [hp] at h
    simp at h
    intro r hr
    rw [← h.1] at hr
    exact Or.inl hr

/-- Every log a filtered range fetch returns is mined inside the
range. -/
theorem get_logs_in_range_mem (chain : ChainLogs) (k : EventKind) (s e : Nat) (l : Log)
    (hl : l ∈ get_logs_in_range chain k s e) :
    ∃ bn, l.block_number = some bn ∧ s ≤ bn ∧ bn ≤ e := by
  unfold get_logs_in_range at hl
  obtain ⟨⟨k', lg⟩, hmem, hrfl⟩ := List.mem_map.mp hl
  have hpred := (List.mem_filter.mp hmem).2
  simp only at hpred hrfl
  subst hrfl
  cases hbn : lg.block_number with
  | none => rw [hbn] at hpred; simp at hpred
  | some bn =>
    rw [hbn] at hpred
    simp at hpred
    exact ⟨bn, rfl, hpred.2.1, hpred.2.2⟩

/-- Every log of every per-kind step of a window is mined inside the
window. -/
theorem window_steps_mem (chain : ChainLogs) (s e : Nat) :
    ∀ p ∈ window_steps (collect_logs chain s e), ∀ l ∈ p.2,
      ∃ bn, l.block_number = some bn ∧ s ≤ bn ∧ bn ≤ e := by
  intro p hp l hl
  simp only [window_steps, collect_logs, List.mem_cons, List.not_mem_nil, or_false] at hp
  rcases hp with hp | hp | hp | hp | hp | hp | hp | hp | hp | hp | hp <;>
    (subst hp; exact get_logs_in_range_mem _ _ _ _ _ hl)

/-- The per-kind fold of one window only adds rows with block numbers
inside the window. -/
theorem fold_steps_chain_events (oracle : Nat → Nat) (ci s e : Nat) :
    ∀ (steps : List (EventKind × List Log)) (acc : IndexerState × Option Failure),
      (∀ p ∈ steps, ∀ l ∈ p.2, ∃ bn, l.block_number = some bn ∧ s ≤ bn ∧ bn ≤ e) →
      ∀ r ∈ (steps.foldl (fun acc step =>
          match acc with
          | (st', some f) => (st', some f)
          | (st', none) =>
            if step.2.length > 0 then sync_logs oracle ci step.1 st' step.2
            else (st', none)) acc).1.store.chain_events,
        r ∈ acc.1.store.chain_events ∨ (s ≤ r.block_number ∧ r.block_number ≤ e) := by
  intro steps
  induction steps with
  | nil => intro acc _ r hr; exact Or.inl hr
  | cons step rest ih =>
    intro acc hsteps r hr
    rw [List.foldl_cons] at hr
    have hrest := ih _ (fun p hp => hsteps p (by simp [hp])) r hr
    rcases hrest with hmem | hbound
    · rcases acc with ⟨st0, res0⟩
      cases res0 with
      | some f => exact Or.inl hmem
      | none =>
        simp only at hmem
        by_cases hlen : step.2.length > 0
        · rw [if_pos hlen] at hmem
          rcases hstep : sync_logs oracle ci step.1 st0 step.2 with ⟨st1, res1⟩
          rw [hstep] at hmem
          have := sync_logs_chain_events oracle ci step.1 st0 st1 step.2 res1 hstep r hmem
          rcases this with h1 | ⟨l, hlmem, hlbn⟩
          · exact Or.inl h1
          · obtain ⟨bn, hbn, hs, he⟩ := hsteps step (by simp) l hlmem
            rw [hbn] at hlbn
            right
            have : bn = r.block_number := by injection hlbn
            omega
        · rw [if_neg hlen] at hmem
          exact Or.inl hmem
    · exact Or.inr hbound

/-- One window of `sync` only adds rows with block numbers inside
`[start_block, end_block]` — whether the window commits fully or stops
at a failed step. -/
theorem process_window_chain_events (chain : ChainLogs) (oracle : Nat → Nat) (ci : Nat)
    (st : IndexerState) (s e : Nat) (st' : IndexerState) (res : Option Failure)
    (h : process_window chain oracle ci st s e = (st', res)) :
    ∀ r ∈ st'.store.chain_events,
      r ∈ st.store.chain_events ∨ (s ≤ r.block_number ∧ r.block_number ≤ e) := by
  unfold process_window at h
  intro r hr
  have := fold_steps_chain_events oracle ci s e
    (window_steps (collect_logs chain s e)) (st, none) (window_steps_mem chain s e) r
    (by rw [h]; exact hr)
  simpa using this

/-- The windows loop only adds rows with block numbers between the
resume point and the end of the *last fetched window* — which reaches
up to `BLOCK_INTERVAL` blocks past `end_block`. -/
theorem sync_windows_chain_events :
    ∀ (n : Nat) (chain : ChainLogs) (oracle : Nat → Nat) (ci : Nat) (st : IndexerState)
      (current end_block : Nat) (st' : IndexerState) (res : Option Failure),
      end_block + 1 - current ≤ n →
      sync_windows chain oracle ci st current end_block = (st', res) →
      ∀ r ∈ st'.store.chain_events,
        r ∈ st.store.chain_events ∨
          (current ≤ r.block_number ∧
            r.block_number ≤ current
              + (BLOCK_INTERVAL + 1) * ((end_block - current) / (BLOCK_INTERVAL + 1))
              + BLOCK_INTERVAL) := by
  intro n
  induction n with
  | zero =>
    intro chain oracle ci st current end_block st' res hm h r hr
    have hc : ¬ current ≤ end_block := by omega
    rw [sync_windows, dif_neg hc] at h
    have h1 : st' = st := (congrArg Prod.fst h).symm
    rw [h1] at hr
    exact Or.inl hr
  | succ n ih =>
    intro chain oracle ci st current end_block st' res hm h r hr
    by_cases hc : current ≤ end_block
    · rw [sync_windows, dif_pos hc] at h
      cases hw : process_window chain oracle ci st current (current + BLOCK_INTERVAL) with
      | mk stw resw =>
       rw [hw] at h
       cases resw with
       | some f =>
         simp only at h
         have h1 : st' = stw := (congrArg Prod.fst h).symm
         rw [h1] at hr
         have := process_window_chain_events chain oracle ci st current
           (current + BLOCK_INTERVAL) stw (some f) hw r hr
         rcases this with h1 | h2
         · exact Or.inl h1
         · right
           simp only [BLOCK_INTERVAL] at h2 ⊢
           omega
       | none =>
         simp only at h
         by_cases hc2 : current + BLOCK_INTERVAL + 1 ≤ end_block
         · have hrec := ih chain oracle ci ⟨stw.store, [], stw.next_id⟩
             (current + BLOCK_INTERVAL + 1) end_block st' res
             (by simp only [BLOCK_INTERVAL] at *; omega) h r hr
           rcases hrec with hmem | hbound
           · have := process_window_chain_events chain oracle ci st current
               (current + BLOCK_INTERVAL) stw none hw r (by simpa using hmem)
             rcases this with h1 | h2
             · exact Or.inl h1
             · right
               simp only [BLOCK_INTERVAL] at h2 ⊢
               omega
           · right
             simp only [BLOCK_INTERVAL] at hbound hc2 ⊢
             have hdiv : (end_block - current) / 2001
                 = (end_block - (current + 2000 + 1)) / 2001 + 1 := by
               omega
             omega
         · rw [sync_windows, dif_neg hc2] at h
           have h1 : st' = ⟨stw.store, [], stw.next_id⟩ := (congrArg Prod.fst h).symm
           rw [h1] at hr
           have := process_window_chain_events chain oracle ci st current
             (current + BLOCK_INTERVAL) stw none hw r (by simpa using hr)
           rcases this with h1 | h2
           · exact Or.inl h1
           · right
             simp only [BLOCK_INTERVAL] at h2 ⊢
             omega
    · rw [sync_windows, dif_neg hc] at h
      have h1 : st' = st := (congrArg Prod.fst h).symm
      rw [h1] at hr
      exact Or.inl hr

/-- Claim C5 (corrected).  What does hold of the sync cursor: after a
successful `sync(a, b)`, every newly persisted event's block number
lies in `[a, a + (BLOCK_INTERVAL+1)·⌊(b−a)/(BLOCK_INTERVAL+1)⌋ + BLOCK_INTERVAL]`
— the last *fetched* window runs a full `BLOCK_INTERVAL` past `b`, so
events beyond `b` can be persisted (the claim's "no event with block
number greater than b" is false, see the counterexample) — and
`get_start_block` returns max-persisted-block + 1, hence `b + 1`
exactly when the maximum persisted block is `b`. -/
theorem c5_cursor_after_sync (chain : ChainLogs) (oracle : Nat → Nat) (ci : Nat)
    (st : IndexerState) (a b : Nat) (st' : IndexerState)
    (_hab : a ≤ b) (h : sync chain oracle ci st a b = (st', none)) :
    (∀ r ∈ st'.store.chain_events,
      r ∈ st.store.chain_events ∨
        (a ≤ r.block_number ∧
          r.block_number ≤ a + (BLOCK_INTERVAL + 1) * ((b - a) / (BLOCK_INTERVAL + 1))
            + BLOCK_INTERVAL))
    ∧ (b ≠ 0 → max_block_number st'.store = b → get_start_block st'.store = b + 1) := by
  constructor
  · intro r hr
    exact sync_windows_chain_events (b + 1 - a) chain oracle ci st a b st' none
      (Nat.le_refl _) h r hr
  · intro hb hmax
    unfold get_start_block
    rw [hmax]
    simp [hb]

/-- Counterexample for C5 as stated: `sync(111816370, 111816370)` over
a chain whose only Register log sits at block 111816371 = `b + 1`.
The window fetch spans the full `[111816370, 111818370]` interval, so
the event *past* `b` is persisted, and `get_start_block` afterwards
returns 111816372 = `b + 2`, not `b + 1`. -/
theorem c5_counterexample :
    (sync c5_chain c5_oracle 10 initial_state 111816370 111816370).2 = none
    ∧ (sync c5_chain c5_oracle 10 initial_state 111816370 111816370).1.store.chain_events.map
        (fun r => r.block_number) = [111816371]
    ∧ get_start_block (sync c5_chain c5_oracle 10 initial_state 111816370 111816370).1.store
        = 111816372 := by
  have h2 : (process_window c5_chain c5_oracle 10 initial_state 111816370
      (111816370 + BLOCK_INTERVAL)).2 = none := by decide
  have hrun := sync_single_window_ok c5_chain c5_oracle 10 initial_state 111816370 h2
  rw [hrun]
  refine ⟨rfl, ?_, ?_⟩ <;> decide

/-- Witness for C5's theorem: a sync whose only event sits exactly at
`b`; the maximum persisted block is `b`, and `get_start_block` indeed
returns `b + 1`. -/
theorem c5_witness :
    max_block_number
        (sync c5_exact_chain c5_oracle 10 initial_state 111816370 111816370).1.store
      = 111816370
    ∧ get_start_block
        (sync c5_exact_chain c5_oracle 10 initial_state 111816370 111816370).1.store
      = 111816371 := by
  have h2 : (process_window c5_exact_chain c5_oracle 10 initial_state 111816370
      (111816370 + BLOCK_INTERVAL)).2 = none := by decide
  have hrun := sync_single_window_ok c5_exact_chain c5_oracle 10 initial_state 111816370 h2
  have hmax : max_block_number
      (sync c5_exact_chain c5_oracle 10 initial_state 111816370 111816370).1.store
      = 111816370 := by
    rw [hrun]; decide
  have h := c5_cursor_after_sync c5_exact_chain c5_oracle 10 initial_state
    111816370 111816370
    (sync c5_exact_chain c5_oracle 10 initial_state 111816370 111816370).1
    (Nat.le_refl _) (by rw [hrun])
  exact ⟨hmax, h.2 (by norm_num) hmax⟩

/-- Witness for C10: the theorem applied at the concrete three-log
input over an empty cache; the timestamp list evaluates to `[10, 30]`. -/
theorem c10_witness :
    (fetch_event_timestamps c10_oracle initial_state [c10_l0, c10_l1, c10_l2]).2.1
        = [c10_l0, c10_l1, c10_l2]
    ∧ (fetch_event_timestamps c10_oracle initial_state [c10_l0, c10_l1, c10_l2]).2.2
        = [10, 30] := by
  have h := c10_timestamp_alignment c10_oracle initial_state [c10_l0, c10_l1, c10_l2]
    (by simp [initial_state])
  refine ⟨h.1, ?_⟩
  rw [h.2.1]
  decide


/-! ### Helper lemmas for the replay claim -/

/-- The generated row id is the only part of `process_register_log`
that depends on the id supply: re-decoding the same log later yields a
row with the same `(transaction_hash, log_index)` dedup key. -/
theorem process_register_log_uid (l : Log) (ci t u v : Nat) (fr : FidRow)
    (er : ChainEventRow) (u' : Nat)
    (h : process_register_log l ci t u = .ok ((fr, er), u')) :
    ∃ fr' er', process_register_log l ci t v = .ok ((fr', er'), v + 1)
      ∧ er'.transaction_hash = er.transaction_hash ∧ er'.log_index = er.log_index := by
  unfold process_register_log at h ⊢
  repeat' split at h
  all_goals try exact Except.noConfusion h
  simp only [Except.ok.injEq, Prod.mk.injEq] at h
  obtain ⟨⟨hfr, her⟩, hu⟩ := h
  subst her
  simp only [*]
  exact ⟨_, _, rfl, rfl, rfl⟩

/-- The `process_pairs` produces one row per consumed pair. -/
theorem process_pairs_length {β : Type} (f : Log → Nat → Nat → EResult (β × Nat)) :
    ∀ (pairs : List (Log × Nat)) (u : Nat) (rows : List β) (u' : Nat),
      process_pairs f pairs u = .ok (rows, u') → rows.length = pairs.length := by
  intro pairs
  induction pairs with
  | nil =>
    intro u rows u' h
    simp [process_pairs] at h
    simp [h.1]
  | cons p rest ih =>
    rcases p with ⟨l, t⟩
    intro u rows u' h
    unfold process_pairs at h
    cases h1 : f l t u with
    | error g => simp only [h1] at h; exact Except.noConfusion h
    | ok bu =>
      rcases bu with ⟨b0, u0⟩
      simp only [h1] at h
      cases h2 : process_pairs f rest u0 with
      | error g => simp only [h2] at h; exact Except.noConfusion h
      | ok bsu =>
        rcases bsu with ⟨bs, u1⟩
        simp only [h2, Except.ok.injEq, Prod.mk.injEq] at h
        obtain ⟨hrows, hu⟩ := h
        subst hrows
        simp [ih u0 bs u1 h2]

/-- Re-decoding a window of register logs under a fresh id supply
reproduces the same dedup keys in the same order. -/
theorem process_pairs_register_uid (ci : Nat) :
    ∀ (pairs : List (Log × Nat)) (u v : Nat) (rows : List (FidRow × ChainEventRow)) (u' : Nat),
      process_pairs (fun l t w => process_register_log l ci t w) pairs u = .ok (rows, u') →
      ∃ rows' v',
        process_pairs (fun l t w => process_register_log l ci t w) pairs v = .ok (rows', v')
        ∧ rows'.map (fun p => event_key p.2) = rows.map (fun p => event_key p.2) := by
  intro pairs
  induction pairs with
  | nil =>
    intro u v rows u' h
    simp [process_pairs] at h
    exact ⟨[], v, by simp [process_pairs], by simp [h.1]⟩
  | cons p rest ih =>
    rcases p with ⟨l, t⟩
    intro u v rows u' h
    unfold process_pairs at h
    cases h1 : process_register_log l ci t u with
    | error g => simp only [h1] at h; exact Except.noConfusion h
    | ok bu =>
      rcases bu with ⟨⟨fr0, er0⟩, u0⟩
      simp only [h1] at h
      cases h2 : process_pairs (fun l t w => process_register_log l ci t w) rest u0 with
      | error g => simp only [h2] at h; exact Except.noConfusion h
      | ok bsu =>
        rcases bsu with ⟨bs, u1⟩
        simp only [h2, Except.ok.injEq, Prod.mk.injEq] at h
        obtain ⟨hrows, hu⟩ := h
        subst hrows
        obtain ⟨fr', er', h1', htx, hli⟩ := process_register_log_uid l ci t u v fr0 er0 u0 h1
        obtain ⟨rows'', v'', h2', hkeys⟩ := ih u0 (v + 1) bs u1 h2
        refine ⟨(fr', er') :: rows'', v'', ?_, ?_⟩
        · unfold process_pairs
          simp only [h1', h2']
        · simp only [event_key] at hkeys
          simp [event_key, hkeys, htx, hli]

/-- A plain bulk insert whose row list repeats a dedup key already in
the table fails (there is no conflict clause to absorb it). -/
theorem execute_chain_event_inserts_conflict :
    ∀ (rows : List ChainEventRow) (s : Store),
      (∃ r ∈ rows, ∃ e ∈ s.chain_events, event_key e = event_key r) →
      ∃ f, execute_chain_event_inserts s rows = .error f := by
  intro rows
  induction rows with
  | nil =>
    intro s h
    simp at h
  | cons r0 rest ih =>
    intro s h
    by_cases hc : (s.chain_events.any fun e =>
        e.transaction_hash == r0.transaction_hash && e.log_index == r0.log_index) = true
    · refine ⟨.error "UNIQUE constraint failed: chain_events.transaction_hash, chain_events.log_index", ?_⟩
      unfold execute_chain_event_inserts insert_chain_event
      rw [if_pos hc]
    · obtain ⟨r, hrmem, e, hemem, hkey⟩ := h
      rcases List.mem_cons.mp hrmem with hr0 | hrrest
      · exfalso
        subst hr0
        apply hc
        rw [List.any_eq_true]
        refine ⟨e, hemem, ?_⟩
        unfold event_key at hkey
        simp at hkey
        simp [hkey.1, hkey.2]
      · have hsub : ∃ r ∈ rest, ∃ e2 ∈ ({ s with
            chain_events := s.chain_events ++ [r0] } : Store).chain_events,
            event_key e2 = event_key r := by
          exact ⟨r, hrrest, e, by simp [hemem], hkey⟩
        obtain ⟨f, hf⟩ := ih _ hsub
        refine ⟨f, ?_⟩
        unfold execute_chain_event_inserts insert_chain_event
        rw [if_neg hc]
        exact hf

/-- Claim C1 (corrected).  Replay is *not* conflict-tolerant: the bulk
insert statements built by `generate_bulk_insert_queries` carry no
`ON CONFLICT` clause, so after any successful non-empty
`persist_many_register_logs`, persisting the same window again fails
with a uniqueness error on the `(transaction_hash, log_index)` dedup
key — the transaction rolls back, so no duplicate rows appear, but the
replay is an error (and `sync` would unwrap it into a panic), not the
claimed silent no-op. -/
theorem c1_replay_is_insert_or_fail (store : Store) (logs : List Log) (ci : Nat)
    (ts : List Nat) (uid uid₂ : Nat) (s' : Store) (n : Nat)
    (h : persist_many_register_logs store logs ci ts uid = .ok (s', n))
    (hne : logs.zip ts ≠ []) :
    ∃ f, persist_many_register_logs s' logs ci ts uid₂ = .error f := by
  unfold persist_many_register_logs at h ⊢
  cases hpp : process_pairs (fun l t u => process_register_log l ci t u) (logs.zip ts) uid with
  | error g => simp only [hpp] at h; exact Except.noConfusion h
  | ok rowsu =>
    rcases rowsu with ⟨rows, u0⟩
    simp only [hpp] at h
    cases hce : execute_chain_event_inserts store (rows.map (·.2)) with
    | error g => simp only [hce] at h; exact Except.noConfusion h
    | ok s1 =>
      simp only [hce] at h
      cases hfi : execute_fid_inserts s1 (rows.map (·.1)) with
      | error g => simp only [hfi] at h; exact Except.noConfusion h
      | ok s2 =>
        simp only [hfi, Except.ok.injEq, Prod.mk.injEq] at h
        have hs1 := execute_chain_event_inserts_ok _ _ _ hce
        have hs2 := execute_fid_inserts_ok _ _ _ hfi
        have hsce : s'.chain_events = store.chain_events ++ rows.map (·.2) := by
          rw [← h.1, hs2, hs1]
        obtain ⟨rows', v', hpp', hkeys⟩ :=
          process_pairs_register_uid ci (logs.zip ts) uid uid₂ rows u0 hpp
        simp only [hpp']
        have hlen := process_pairs_length _ (logs.zip ts) uid rows u0 hpp
        rcases rows with _ | ⟨q0, qrest⟩
        · exact absurd (List.length_eq_zero.mp hlen.symm) hne
        rcases rows' with _ | ⟨p0, prest⟩
        · simp at hkeys
        have hkey0 : event_key p0.2 = event_key q0.2 := by
          simp only [List.map_cons, List.cons.injEq] at hkeys
          exact hkeys.1
        have hconf : ∃ r ∈ (p0 :: prest).map (·.2), ∃ e ∈ s'.chain_events,
            event_key e = event_key r := by
          refine ⟨p0.2, by simp, q0.2, ?_, hkey0.symm⟩
          rw [hsce]
          simp
        obtain ⟨f, hf⟩ := execute_chain_event_inserts_conflict _ _ hconf
        exact ⟨f, by simp only [hf]⟩

/-- Counterexample for C1 as stated: persisting one well-formed
Register log into an empty store succeeds; persisting the identical
window a second time does not succeed idempotently — it fails with the
uniqueness violation of a plain `INSERT` ("insert or fail"). -/
theorem c1_counterexample :
    persist_many_register_logs emptyStore [c1_log] 10 [100] 0 = .ok (c1_s1, 1)
    ∧ persist_many_register_logs c1_s1 [c1_log] 10 [100] 1
      = .error (.error
          "UNIQUE constraint failed: chain_events.transaction_hash, chain_events.log_index") := by
  decide

/-- Witness for C1's theorem: the replay of the concrete one-log window
is not a success. -/
theorem c1_witness :
    (persist_many_register_logs c1_s1 [c1_log] 10 [100] 1).isOk = false := by
  obtain ⟨f, hf⟩ := c1_replay_is_insert_or_fail emptyStore [c1_log] 10 [100] 0 1 c1_s1 1
    (by decide) (by decide)
  rw [hf]
  rfl

end Teleport
